import Mathlib

/-!
# Verification of the drawing-canvas object/geometry/interaction engine

Shallow embedding of the canvas engine of this repository.  The engine exists
in two variants in the repository: `src/client/canvas.js` (the compact variant
whose line numbers the claims cite) and the richer variant embedded at the end
of `src/README.md` (which additionally supports `image` objects and the
`locked` flag).  The two variants agree verbatim on every function embedded
here except where a doc string notes a rich-variant extension (the `image`
branches, and the `locked` guards of `_deleteSelected` / `_handleSelectDown`).

JavaScript numbers are modelled as `ℚ`; `Math.cos` / `Math.sin` and the canvas
text-measurement primitive are modelled as components of an explicit
environment `Env`, since they are host-supplied transcendental/layout
functions.  `Math.hypot d ≤ r` comparisons are embedded square-free as
`0 ≤ r ∧ d² ≤ r²`, which is equivalent over the reals.  JS objects that lack a
`rotation` / `locked` / `size` field behave like `0` / `false` / `0` under the
code's falsy checks, so those defaults are used here.
-/

namespace Canvas

/-- A 2D sample point `{x, y}`. -/
structure Pt where
  x : ℚ
  y : ℚ
deriving DecidableEq, Repr

/-- An axis-aligned box `{x, y, w, h}`. -/
structure Box where
  x : ℚ
  y : ℚ
  w : ℚ
  h : ℚ
deriving DecidableEq, Repr

/-- Host environment: interpretations of `Math.cos`, `Math.sin`, the canvas
`measureText` width (per line, given the font size), and the app-level default
brush size `this.size` used by the `obj.size || this.size` fallbacks. -/
structure Env where
  cos : ℚ → ℚ
  sin : ℚ → ℚ
  measureText : String → ℚ → ℚ
  defaultSize : ℚ

/-- The drawable-object tagged union (discriminated by `type` in the JS).
`shape` covers every parametric two-corner shape (`rect`, `circle`, `line`,
`arrow`, `polygon`, ... — the tag is kept as the `kind` string exactly as the
code dispatches on it).  `image` exists only in the rich variant. -/
inductive Obj where
  | stroke (id : Nat) (points : List Pt) (color : String) (size : ℚ)
      (opacity : ℚ) (tool : String) (rotation : ℚ) (locked : Bool)
  | shape (id : Nat) (kind : String) (x1 y1 x2 y2 : ℚ) (color : String)
      (size : ℚ) (opacity : ℚ) (fill : Bool) (cornerRadius : ℚ) (sides : Nat)
      (rotation : ℚ) (locked : Bool)
  | text (id : Nat) (x y : ℚ) (lines : List String) (fontSize : ℚ)
      (color : String) (opacity : ℚ) (rotation : ℚ) (locked : Bool)
  | image (id : Nat) (x y w h : ℚ) (cornerRadius : ℚ) (opacity : ℚ)
      (rotation : ℚ) (locked : Bool)
  | group (id : Nat) (children : List Obj) (rotation : ℚ) (locked : Bool)
deriving Repr

/-- `obj.id`. -/
def Obj.id : Obj → Nat
  | .stroke i _ _ _ _ _ _ _ => i
  | .shape i _ _ _ _ _ _ _ _ _ _ _ _ _ => i
  | .text i _ _ _ _ _ _ _ _ => i
  | .image i _ _ _ _ _ _ _ _ => i
  | .group i _ _ _ => i

/-- `obj.rotation || 0`. -/
def Obj.rotation : Obj → ℚ
  | .stroke _ _ _ _ _ _ r _ => r
  | .shape _ _ _ _ _ _ _ _ _ _ _ _ r _ => r
  | .text _ _ _ _ _ _ _ r _ => r
  | .image _ _ _ _ _ _ _ r _ => r
  | .group _ _ r _ => r

/-- `obj.locked` (falsy when the field is absent). -/
def Obj.locked : Obj → Bool
  | .stroke _ _ _ _ _ _ _ l => l
  | .shape _ _ _ _ _ _ _ _ _ _ _ _ _ l => l
  | .text _ _ _ _ _ _ _ _ l => l
  | .image _ _ _ _ _ _ _ _ l => l
  | .group _ _ _ l => l

/-- Replace an object's `id`, leaving every other field untouched
(`c.id = this._nextId++` in `_ungroupSelected`). -/
def Obj.withId : Obj → Nat → Obj
  | .stroke _ p c s o t r l, i => .stroke i p c s o t r l
  | .shape _ k a b c' d e f g h cr sd r l, i => .shape i k a b c' d e f g h cr sd r l
  | .text _ x y ls fs c o r l, i => .text i x y ls fs c o r l
  | .image _ x y w h cr o r l, i => .image i x y w h cr o r l
  | .group _ ch r l, i => .group i ch r l

/-- `_rotatePoint(cx, cy, px, py, angle)` — rotate `(px,py)` about `(cx,cy)`;
the code short-circuits to the identity on a falsy angle before touching
`Math.cos`/`Math.sin`. -/
def rotatePoint (E : Env) (cx cy px py angle : ℚ) : Pt :=
  if angle = 0 then ⟨px, py⟩
  else
    let c := E.cos angle
    let s := E.sin angle
    let dx := px - cx
    let dy := py - cy
    ⟨cx + dx * c - dy * s, cy + dx * s + dy * c⟩

/-- `obj.size || this.size` (`0` is falsy in JS). -/
def sizeOrDefault (E : Env) (size : ℚ) : ℚ :=
  if size = 0 then E.defaultSize else size

mutual

/-- `_getAxisAlignedBoundsFromObj(obj)` — the un-rotated logical bounding box.
Strokes are padded by `obj.size || this.size` (the full line width) on every
side; groups take the running min/max over the children's boxes (`null` when
no child contributes, mirroring the `Infinity` sentinels); text uses the
measured max line width (floored at 1) and `lineCount * fontSize * 1.4`. -/
def boundsFromObj (E : Env) : Obj → Option Box
  | .group _ children _ _ =>
    match childBoxes E children with
    | [] => none
    | b :: rest =>
      let minX := rest.foldl (fun a bb => min a bb.x) b.x
      let minY := rest.foldl (fun a bb => min a bb.y) b.y
      let maxX := rest.foldl (fun a bb => max a (bb.x + bb.w)) (b.x + b.w)
      let maxY := rest.foldl (fun a bb => max a (bb.y + bb.h)) (b.y + b.h)
      some ⟨minX, minY, maxX - minX, maxY - minY⟩
  | .stroke _ pts _ size _ _ _ _ =>
    match pts with
    | [] => none
    | p0 :: _ =>
      let minX := pts.foldl (fun a p => min a p.x) p0.x
      let minY := pts.foldl (fun a p => min a p.y) p0.y
      let maxX := pts.foldl (fun a p => max a p.x) p0.x
      let maxY := pts.foldl (fun a p => max a p.y) p0.y
      let pad := sizeOrDefault E size
      some ⟨minX - pad, minY - pad, maxX - minX + pad * 2, maxY - minY + pad * 2⟩
  | .text _ x y lines fontSize _ _ _ _ =>
    let w := lines.foldl (fun a l => max a (E.measureText l fontSize)) 1
    some ⟨x, y, w, (lines.length : ℚ) * fontSize * (7 / 5)⟩
  | .image _ x y w h _ _ _ _ => some ⟨x, y, w, h⟩
  | .shape _ _ x1 y1 x2 y2 _ _ _ _ _ _ _ _ =>
    some ⟨min x1 x2, min y1 y2, max x1 x2 - min x1 x2, max y1 y2 - min y1 y2⟩

/-- The `for (const child of obj.children)` collection of the non-`null`
child boxes in the `group` branch of `_getAxisAlignedBoundsFromObj`. -/
def childBoxes (E : Env) : List Obj → List Box
  | [] => []
  | c :: cs =>
    match boundsFromObj E c with
    | none => childBoxes E cs
    | some b => b :: childBoxes E cs

end

/-- `_getAxisAlignedBounds(obj)` — the rotation-aware AABB: the local-bounds
corners rotated by `obj.rotation` about the local-bounds center, re-flattened
to an AABB (`local` is returned unchanged on a falsy rotation). -/
def getAxisAlignedBounds (E : Env) (o : Obj) : Option Box :=
  match boundsFromObj E o with
  | none => none
  | some lb =>
    if o.rotation = 0 then some lb
    else
      let cx := lb.x + lb.w / 2
      let cy := lb.y + lb.h / 2
      let c1 := rotatePoint E cx cy lb.x lb.y o.rotation
      let c2 := rotatePoint E cx cy (lb.x + lb.w) lb.y o.rotation
      let c3 := rotatePoint E cx cy (lb.x + lb.w) (lb.y + lb.h) o.rotation
      let c4 := rotatePoint E cx cy lb.x (lb.y + lb.h) o.rotation
      let minX := min (min c1.x c2.x) (min c3.x c4.x)
      let minY := min (min c1.y c2.y) (min c3.y c4.y)
      let maxX := max (max c1.x c2.x) (max c3.x c4.x)
      let maxY := max (max c1.y c2.y) (max c3.y c4.y)
      some ⟨minX, minY, maxX - minX, maxY - minY⟩

/-- The squared distance computed by `_distToSegment(px, py, x1, y1, x2, y2)`
(the code returns `Math.hypot` of these components; the square root is
eliminated here, see `distToSegmentLe`). -/
def distSqToSegment (px py x1 y1 x2 y2 : ℚ) : ℚ :=
  let dx := x2 - x1
  let dy := y2 - y1
  if dx = 0 ∧ dy = 0 then (px - x1) ^ 2 + (py - y1) ^ 2
  else
    let t := ((px - x1) * dx + (py - y1) * dy) / (dx * dx + dy * dy)
    let tt := max 0 (min 1 t)
    let cx := x1 + tt * dx
    let cy := y1 + tt * dy
    (px - cx) ^ 2 + (py - cy) ^ 2

/-- `_distToSegment(px,py,x1,y1,x2,y2) <= r`, embedded without `Math.sqrt`:
for a nonnegative distance `d`, `d ≤ r ↔ 0 ≤ r ∧ d² ≤ r²`. -/
def distToSegmentLe (px py x1 y1 x2 y2 r : ℚ) : Bool :=
  decide (0 ≤ r) && decide (distSqToSegment px py x1 y1 x2 y2 ≤ r ^ 2)

/-- The shared preamble of `_hitTest`: transform the test point into the
object's un-rotated local space (inverse-rotate about the local-bounds center;
identity on a falsy rotation or a `null` bounds). -/
def localPoint (E : Env) (o : Obj) (x y : ℚ) : Pt :=
  if o.rotation = 0 then ⟨x, y⟩
  else
    match boundsFromObj E o with
    | some b =>
      let cx := b.x + b.w / 2
      let cy := b.y + b.h / 2
      rotatePoint E cx cy x y (-o.rotation)
    | none => ⟨x, y⟩

/-- The `lx >= b.x - pad && lx <= b.x + b.w + pad && ly >= b.y - pad &&
ly <= b.y + b.h + pad` containment test repeated across `_hitTest`. -/
def inBoxPad (b : Box) (lx ly pad : ℚ) : Bool :=
  decide (b.x - pad ≤ lx) && decide (lx ≤ b.x + b.w + pad) &&
    decide (b.y - pad ≤ ly) && decide (ly ≤ b.y + b.h + pad)

/-- `_hitRectOutline(b, x, y, size)` — within `size` of one of the four
edges. -/
def hitRectOutline (b : Box) (x y size : ℚ) : Bool :=
  let left := decide (|x - b.x| ≤ size) && decide (b.y - size ≤ y) &&
    decide (y ≤ b.y + b.h + size)
  let right := decide (|x - (b.x + b.w)| ≤ size) && decide (b.y - size ≤ y) &&
    decide (y ≤ b.y + b.h + size)
  let top := decide (|y - b.y| ≤ size) && decide (b.x - size ≤ x) &&
    decide (x ≤ b.x + b.w + size)
  let bottom := decide (|y - (b.y + b.h)| ≤ size) && decide (b.x - size ≤ x) &&
    decide (x ≤ b.x + b.w + size)
  left || right || top || bottom

/-- The `for (let i = 1; i < pts.length; i++)` loop body of `_hitStroke`:
true when some segment between consecutive sample points is within `size`. -/
def hitSegments (x y size : ℚ) : List Pt → Bool
  | p1 :: p2 :: rest =>
    distToSegmentLe x y p1.x p1.y p2.x p2.y size || hitSegments x y size (p2 :: rest)
  | _ => false

/-- `_hitStroke(stroke, x, y, pad)` — false on an empty point list, else the
segment scan with threshold `(stroke.size || this.size) + pad`. -/
def hitStroke (E : Env) (pts : List Pt) (size x y pad : ℚ) : Bool :=
  match pts with
  | [] => false
  | _ :: _ => hitSegments x y (sizeOrDefault E size + pad) pts

/-- The shape kinds `_hitTest` resolves by bounding-box containment (the rich
variant's list; the compact variant lists its subset
`circle`/`triangle`/`polygon` with the same semantics). -/
def bboxKinds : List String :=
  ["circle", "triangle", "polygon", "hexagon", "pill", "diamond",
   "parallelogram", "trapezoid", "trapdown", "cross", "frame", "heart",
   "cloud", "speechbubble", "speechoval", "bookmark", "ribbon", "arch",
   "stadium", "star", "starburst"]

mutual

/-- `_hitTest(obj, x, y, pad)` — groups inverse-rotate the point and recurse
into children; every other type first maps the point into local space, then
dispatches on `type`. -/
def hitTest (E : Env) : Obj → ℚ → ℚ → ℚ → Bool
  | o@(.group _ children _ _), x, y, pad =>
    let g := localPoint E o x y
    hitTestList E children g.x g.y pad
  | o@(.stroke _ pts _ size _ _ _ _), x, y, pad =>
    let l := localPoint E o x y
    hitStroke E pts size l.x l.y pad
  | o@(.text _ _ _ _ _ _ _ _ _), x, y, pad =>
    let l := localPoint E o x y
    match boundsFromObj E o with
    | some b => inBoxPad b l.x l.y pad
    | none => false
  | o@(.image _ _ _ _ _ _ _ _ _), x, y, pad =>
    let l := localPoint E o x y
    match boundsFromObj E o with
    | some b => inBoxPad b l.x l.y pad
    | none => false
  | o@(.shape _ kind x1 y1 x2 y2 _ size _ fill _ _ _ _), x, y, pad =>
    let l := localPoint E o x y
    match boundsFromObj E o with
    | none => false
    | some b =>
      if kind = "rect" then
        if fill then inBoxPad b l.x l.y pad
        else hitRectOutline b l.x l.y (sizeOrDefault E size + pad)
      else if bboxKinds.contains kind then inBoxPad b l.x l.y pad
      else if kind = "line" ∨ kind = "arrow" then
        distToSegmentLe l.x l.y x1 y1 x2 y2 (sizeOrDefault E size + pad)
      else false

/-- The `for (const child of obj.children)` scan of the `group` branch of
`_hitTest`: true when some child hits. -/
def hitTestList (E : Env) : List Obj → ℚ → ℚ → ℚ → Bool
  | [], _, _, _ => false
  | c :: cs, x, y, pad => hitTest E c x y pad || hitTestList E cs x y pad

end

/-- `_findObjectAt(x, y)` — scan the object list from topmost (highest index)
to bottommost, returning the first hit. -/
def findObjectAt (E : Env) (objects : List Obj) (x y : ℚ) : Option Obj :=
  objects.reverse.find? fun o => hitTest E o x y 0

/-- `_getObjectById(id)`. -/
def getObjectById (objects : List Obj) (i : Nat) : Option Obj :=
  objects.find? fun o => o.id == i

mutual

/-- `_moveFromBase(obj, base, dx, dy)` — during a gesture the live object's
non-positional fields coincide with the pointer-down base clone, so the net
effect is the base with every coordinate shifted by `(dx, dy)` (groups recurse
into children). -/
def moveFromBase (dx dy : ℚ) : Obj → Obj
  | .group i ch r l => .group i (moveFromBaseList dx dy ch) r l
  | .stroke i pts c s o t r l =>
    .stroke i (pts.map fun p => ⟨p.x + dx, p.y + dy⟩) c s o t r l
  | .text i x y ls fs c o r l => .text i (x + dx) (y + dy) ls fs c o r l
  | .image i x y w h cr o r l => .image i (x + dx) (y + dy) w h cr o r l
  | .shape i k x1 y1 x2 y2 c s o f cr sd r l =>
    .shape i k (x1 + dx) (y1 + dy) (x2 + dx) (y2 + dy) c s o f cr sd r l

/-- The `base.children.map(...)` recursion of the `group` branch of
`_moveFromBase`. -/
def moveFromBaseList (dx dy : ℚ) : List Obj → List Obj
  | [] => []
  | c :: cs => moveFromBase dx dy c :: moveFromBaseList dx dy cs

end

mutual

/-- `_scaleObjCoords(obj, oldB, newB)` — map every coordinate linearly from
`oldB` to `newB` with independent X/Y factors (`1` when the old span is not
positive); text rescales `fontSize` by `max(sx, sy)` floored at 6; the rich
variant's `image` branch floors `w`/`h` at 10. -/
def scaleObjCoords (oldB newB : Box) : Obj → Obj
  | .stroke i pts c s o t r l =>
    let sx := if oldB.w > 0 then newB.w / oldB.w else 1
    let sy := if oldB.h > 0 then newB.h / oldB.h else 1
    .stroke i
      (pts.map fun p => ⟨newB.x + (p.x - oldB.x) * sx, newB.y + (p.y - oldB.y) * sy⟩)
      c s o t r l
  | .text i x y ls fs c o r l =>
    let sx := if oldB.w > 0 then newB.w / oldB.w else 1
    let sy := if oldB.h > 0 then newB.h / oldB.h else 1
    .text i (newB.x + (x - oldB.x) * sx) (newB.y + (y - oldB.y) * sy) ls
      (max 6 (fs * max sx sy)) c o r l
  | .image i x y w h cr o r l =>
    let sx := if oldB.w > 0 then newB.w / oldB.w else 1
    let sy := if oldB.h > 0 then newB.h / oldB.h else 1
    .image i (newB.x + (x - oldB.x) * sx) (newB.y + (y - oldB.y) * sy)
      (max 10 (w * sx)) (max 10 (h * sy)) cr o r l
  | .group i ch r l =>
    .group i (scaleObjCoordsList oldB newB ch) r l
  | .shape i k x1 y1 x2 y2 c s o f cr sd r l =>
    let sx := if oldB.w > 0 then newB.w / oldB.w else 1
    let sy := if oldB.h > 0 then newB.h / oldB.h else 1
    .shape i k (newB.x + (x1 - oldB.x) * sx) (newB.y + (y1 - oldB.y) * sy)
      (newB.x + (x2 - oldB.x) * sx) (newB.y + (y2 - oldB.y) * sy) c s o f cr sd r l

/-- The `obj.children.forEach(...)` recursion of the `group` branch of
`_scaleObjCoords`. -/
def scaleObjCoordsList (oldB newB : Box) : List Obj → List Obj
  | [] => []
  | c :: cs => scaleObjCoords oldB newB c :: scaleObjCoordsList oldB newB cs

end

/-- `Math.round` (half toward positive infinity). -/
def jsRound (q : ℚ) : ℤ := ⌊q + 1 / 2⌋

/-- A property-panel value: a number or a color string. -/
inductive PropVal where
  | num (q : ℚ)
  | str (s : String)
deriving DecidableEq, Repr

mutual

/-- `_applyPropToObj(obj, prop, value)` — groups recurse; `color`, `opacity`
and `size` assign directly (text maps `size` to `fontSize = max(6,
round(value*2.5))`); `cornerRadius`/`sides` only apply to the listed kinds.
Assigning `color`/`size` to an `image` adds a property no code reads, hence a
no-op here. -/
def applyPropToObj (prop : String) (v : PropVal) : Obj → Obj
  | .group i ch r l =>
    .group i (applyPropToObjList prop v ch) r l
  | .stroke i pts c s o t r l =>
    match prop, v with
    | "color", .str c' => .stroke i pts c' s o t r l
    | "opacity", .num q => .stroke i pts c s q t r l
    | "size", .num q => .stroke i pts c q o t r l
    | _, _ => .stroke i pts c s o t r l
  | .text i x y ls fs c o r l =>
    match prop, v with
    | "color", .str c' => .text i x y ls fs c' o r l
    | "opacity", .num q => .text i x y ls fs c q r l
    | "size", .num q => .text i x y ls (max 6 ((jsRound (q * (5 / 2)) : ℤ) : ℚ)) c o r l
    | _, _ => .text i x y ls fs c o r l
  | .image i x y w h cr o r l =>
    match prop, v with
    | "opacity", .num q => .image i x y w h cr q r l
    | "cornerRadius", .num q => .image i x y w h q o r l
    | _, _ => .image i x y w h cr o r l
  | .shape i k x1 y1 x2 y2 c s o f cr sd r l =>
    match prop, v with
    | "color", .str c' => .shape i k x1 y1 x2 y2 c' s o f cr sd r l
    | "opacity", .num q => .shape i k x1 y1 x2 y2 c s q f cr sd r l
    | "size", .num q => .shape i k x1 y1 x2 y2 c q o f cr sd r l
    | "cornerRadius", .num q =>
      if ["rect", "polygon", "triangle", "hexagon", "star", "starburst"].contains k
      then .shape i k x1 y1 x2 y2 c s o f q sd r l
      else .shape i k x1 y1 x2 y2 c s o f cr sd r l
    | "sides", .num q =>
      if ["polygon", "triangle", "hexagon", "star", "starburst"].contains k
      then .shape i k x1 y1 x2 y2 c s o f cr (jsRound q).toNat r l
      else .shape i k x1 y1 x2 y2 c s o f cr sd r l
    | _, _ => .shape i k x1 y1 x2 y2 c s o f cr sd r l

/-- The `obj.children.forEach(...)` recursion of the `group` branch of
`_applyPropToObj`. -/
def applyPropToObjList (prop : String) (v : PropVal) : List Obj → List Obj
  | [] => []
  | c :: cs => applyPropToObj prop v c :: applyPropToObjList prop v cs

end

/-- The engine state relevant to the claims: the object list, the history
stack with its pointer (`historyPtr` is `-1` before the first snapshot), the
id allocator `_nextId`, and the selection Set (modelled as its insertion-order
list of ids). -/
structure State where
  objects : List Obj
  history : List (List Obj)
  historyPtr : Int
  nextId : Nat
  selectedIds : List Nat
deriving Repr

/-- `this.MAX_HISTORY = 50`. -/
def MAX_HISTORY : Nat := 50

/-- `_cloneObjects(list)` — the `JSON.parse(JSON.stringify(·))` deep clone per
object; on values (no aliasing) a deep clone is the identity.  The claims'
"value-equal, not reference-equal" distinction is invisible in value
semantics, where only the value equality survives. -/
def cloneObjects (l : List Obj) : List Obj := l

/-- `history[i]` for an in-range pointer. -/
def historyAt (h : List (List Obj)) (i : Int) : List Obj :=
  (h.getD i.toNat [])

/-- `saveSnap()` — truncate forward history after the pointer, push a deep
clone of the object list, evict the oldest entry beyond `MAX_HISTORY`
(`shift()`), and point at the new tail. -/
def saveSnap (s : State) : State :=
  let h := s.history.take (s.historyPtr + 1).toNat ++ [cloneObjects s.objects]
  let h := if MAX_HISTORY < h.length then h.tail else h
  { s with history := h, historyPtr := (h.length : Int) - 1 }

/-- `undo()` — clear the selection (`_setSelection(null)`) unconditionally,
then move the pointer back and load a clone of that snapshot unless already at
the oldest entry. -/
def undo (s : State) : State :=
  let s := { s with selectedIds := [] }
  if s.historyPtr ≤ 0 then s
  else
    { s with historyPtr := s.historyPtr - 1,
             objects := cloneObjects (historyAt s.history (s.historyPtr - 1)) }

/-- `redo()` — clear the selection unconditionally, then move the pointer
forward and load a clone of that snapshot unless already at the newest
entry. -/
def redo (s : State) : State :=
  let s := { s with selectedIds := [] }
  if (s.history.length : Int) - 1 ≤ s.historyPtr then s
  else
    { s with historyPtr := s.historyPtr + 1,
             objects := cloneObjects (historyAt s.history (s.historyPtr + 1)) }

/-- `clearCanvas()` — clear selection and objects, then snapshot. -/
def clearCanvas (s : State) : State :=
  saveSnap { s with selectedIds := [], objects := [] }

/-- The state before `init()`. -/
def blankState : State :=
  { objects := [], history := [], historyPtr := -1, nextId := 1, selectedIds := [] }

/-- `init()` takes a snapshot of the blank canvas. -/
def initState : State := saveSnap blankState

/-- One committed gesture: the interaction machine mutates the object list to
some result `L` during the gesture and pointer-up takes exactly one
`saveSnap()` (this over-approximates every concrete gesture kind). -/
def commitGesture (s : State) (L : List Obj) : State :=
  saveSnap { s with objects := L }

/-- Run a sequence of committed gestures from the freshly initialised app. -/
def runGestures (Ls : List (List Obj)) : State :=
  Ls.foldl commitGesture initState

/-- `Set.prototype.add` on the insertion-ordered selection list. -/
def selAdd (sel : List Nat) (i : Nat) : List Nat :=
  if sel.contains i then sel else sel ++ [i]

/-- Set an object's `rotation` field (`c.rotation = (c.rotation || 0) + groupRotation`). -/
def Obj.setRotation : Obj → ℚ → Obj
  | .stroke i p c s o t _ l, r => .stroke i p c s o t r l
  | .shape i k a b c' d e f g h cr sd _ l, r => .shape i k a b c' d e f g h cr sd r l
  | .text i x y ls fs c o _ l, r => .text i x y ls fs c o r l
  | .image i x y w h cr o _ l, r => .image i x y w h cr o r l
  | .group i ch _ l, r => .group i ch r l

/-- The in-progress freehand stroke (`this.currentStroke`). -/
structure CurrentStroke where
  points : List Pt
  color : String
  size : ℚ
  opacity : ℚ
  tool : String

/-- `_eraseByStroke(stroke)` — drop every object hit by some sample point of
the eraser stroke, with pad `stroke.size * 1.5` (the early return on an empty
hit set leaves the same object list). -/
def eraseByStroke (E : Env) (objects : List Obj) (pts : List Pt) (size : ℚ) :
    List Obj :=
  objects.filter fun o => !(pts.any fun p => hitTest E o p.x p.y (size * (3 / 2)))

/-- `_commitFreehandStroke(x, y)` — append the final pointer position; an
eraser stroke erases and is not persisted; any other tool appends a new
stroke object with a fresh id; either way exactly one snapshot follows. -/
def commitFreehandStroke (E : Env) (cur : CurrentStroke) (x y : ℚ) (s : State) :
    State :=
  let pts := cur.points ++ [⟨x, y⟩]
  if cur.tool = "eraser" then
    saveSnap { s with objects := eraseByStroke E s.objects pts cur.size }
  else
    saveSnap { s with
      objects := s.objects ++
        [.stroke s.nextId pts cur.color cur.size cur.opacity cur.tool 0 false],
      nextId := s.nextId + 1 }

/-- The in-progress parametric shape (`this.currentShape`). -/
structure CurrentShape where
  tool : String
  x1 : ℚ
  y1 : ℚ
  color : String
  size : ℚ
  opacity : ℚ
  fill : Bool

/-- `Math.sign`. -/
def jsSign (q : ℚ) : ℚ := if 0 < q then 1 else if q < 0 then -1 else 0

/-- `_commitShape(x, y)` — fix the second corner (square-constrained under
shift via `Math.sign(d || 1) * min(|dx|, |dy|)`), then append the shape
object with a fresh id and `rotation: 0`, then snapshot. -/
def commitShape (cur : CurrentShape) (cornerRadius : ℚ) (sides : Nat)
    (shiftDown : Bool) (x y : ℚ) (s : State) : State :=
  let e : Pt :=
    if shiftDown then
      let dx := x - cur.x1
      let dy := y - cur.y1
      let side := min |dx| |dy|
      ⟨cur.x1 + jsSign (if dx = 0 then 1 else dx) * side,
       cur.y1 + jsSign (if dy = 0 then 1 else dy) * side⟩
    else ⟨x, y⟩
  saveSnap { s with
    objects := s.objects ++
      [.shape s.nextId cur.tool cur.x1 cur.y1 e.x e.y cur.color cur.size
        cur.opacity cur.fill cornerRadius sides 0 false],
    nextId := s.nextId + 1 }

/-- `commitText()` — a non-empty trimmed input appends a text object with a
fresh id and snapshots; an empty one only dismisses the overlay. -/
def commitText (input : String) (x y fontSize : ℚ) (color : String)
    (opacity : ℚ) (s : State) : State :=
  let t := input.trim
  if t = "" then s
  else
    saveSnap { s with
      objects := s.objects ++
        [.text s.nextId x y (t.splitOn "\n") fontSize color opacity 0 false],
      nextId := s.nextId + 1 }

/-- `_deleteSelected()` (rich variant) — remove the selected objects except
locked ones (`filter(obj => !selected.has(obj.id) || obj.locked)`), clear the
selection, snapshot.  The compact variant omits the `|| obj.locked` guard. -/
def deleteSelected (s : State) : State :=
  if s.selectedIds = [] then s
  else
    saveSnap { s with
      objects := s.objects.filter fun o => !(s.selectedIds.contains o.id) || o.locked,
      selectedIds := [] }

/-- `_groupSelected()` — with ≥ 2 selected ids: deep-copy the selected
objects in selection order, remove the originals, and splice a fresh-id group
at `min(topIdx, remaining.length)` where `topIdx` is the topmost member's
index in the original list; select the group and snapshot.  (`Math.max()` of
an empty spread is `-Infinity`; the `-1` default below is likewise only
reached when no selected id resolves, which the theorems' hypotheses
exclude.) -/
def groupSelected (s : State) : State :=
  if s.selectedIds.length < 2 then s
  else
    let members := s.selectedIds.filterMap fun i => getObjectById s.objects i
    let topIdx : Int :=
      ((members.map fun m => ((s.objects.findIdx fun o => o.id == m.id : Nat) : Int)).max?).getD (-1)
    let rest := s.objects.filter fun o => !(s.selectedIds.contains o.id)
    let g : Obj := .group s.nextId (cloneObjects members) 0 false
    let k : Nat := (min topIdx (rest.length : Int)).toNat
    saveSnap { s with
      objects := rest.take k ++ g :: rest.drop k,
      selectedIds := [s.nextId],
      nextId := s.nextId + 1 }

/-- `_ungroupSelected()` — with exactly one selected id resolving to a group:
clone the children with fresh sequential ids, bake a non-zero group rotation
additively into each child's rotation, and splice them over the group's list
position; select the children and snapshot. -/
def ungroupSelected (s : State) : State :=
  match s.selectedIds with
  | [gid] =>
    match getObjectById s.objects gid with
    | some (.group _ children gr _) =>
      let newChildren := children.mapIdx fun j c =>
        let c := c.withId (s.nextId + j)
        if gr = 0 then c else c.setRotation (c.rotation + gr)
      let idx := s.objects.findIdx fun o => o.id == gid
      saveSnap { s with
        objects := s.objects.take idx ++ newChildren ++ s.objects.drop (idx + 1),
        selectedIds := newChildren.map Obj.id,
        nextId := s.nextId + children.length }
    | _ => s
  | _ => s

/-- The `for (const obj of this.objects)` loop body of `_finishMarquee()`:
skip objects without bounds, add the ids of those whose rotation-aware AABB
strictly overlaps the marquee rectangle. -/
def marqueeStep (E : Env) (mx1 my1 mx2 my2 : ℚ) (acc : List Nat) (o : Obj) :
    List Nat :=
  match getAxisAlignedBounds E o with
  | none => acc
  | some b =>
    if b.x < mx2 ∧ mx1 < b.x + b.w ∧ b.y < my2 ∧ my1 < b.y + b.h then
      selAdd acc o.id
    else acc

/-- `_finishMarquee()` — when the marquee moved more than 4 units on some
axis, re-select exactly the objects whose rotation-aware AABB strictly
overlaps the marquee rectangle; otherwise leave the selection (already
cleared at pointer-down) untouched. -/
def finishMarquee (E : Env) (ms me : Pt) (s : State) : State :=
  let mx1 := min ms.x me.x
  let my1 := min ms.y me.y
  let mx2 := max ms.x me.x
  let my2 := max ms.y me.y
  if 4 < mx2 - mx1 ∨ 4 < my2 - my1 then
    { s with selectedIds := s.objects.foldl (marqueeStep E mx1 my1 mx2 my2) [] }
  else s

/-- A whole marquee gesture: `_handleSelectDown` on empty space clears the
selection and arms the marquee at `ms`; pointer-up at `me` runs
`_finishMarquee()`. -/
def marqueeGesture (E : Env) (ms me : Pt) (s : State) : State :=
  finishMarquee E ms me { s with selectedIds := [] }

/-- `_applyPropToSelected(prop, value)` — apply the edit to every selected
object that resolves (locked or not); under the pairwise-distinct-ids
invariant the per-id mutation loop is the filtered map below. -/
def applyPropToSelected (prop : String) (v : PropVal) (s : State) : State :=
  if s.selectedIds = [] then s
  else
    { s with objects := s.objects.map fun o =>
        if s.selectedIds.contains o.id then applyPropToObj prop v o else o }

/-- `setColor(c)` restricted to a non-empty selection (rich variant): a no-op
when every selected object is locked, else `_applyPropToSelected('color', c)`
followed by a snapshot. -/
def setColor (c : String) (s : State) : State :=
  if s.selectedIds = [] then s
  else
    let allLocked := s.selectedIds.all fun i =>
      match getObjectById s.objects i with
      | some o => o.locked
      | none => false
    if allLocked then s
    else saveSnap (applyPropToSelected "color" (.str c) s)

/-- `[0,3,5].includes(hi)` — left-column handles. -/
def leftH (hi : Nat) : Bool := hi == 0 || hi == 3 || hi == 5

/-- `[2,4,7].includes(hi)` — right-column handles. -/
def rightH (hi : Nat) : Bool := hi == 2 || hi == 4 || hi == 7

/-- `[0,1,2].includes(hi)` — top-row handles. -/
def topH (hi : Nat) : Bool := hi == 0 || hi == 1 || hi == 2

/-- `[5,6,7].includes(hi)` — bottom-row handles. -/
def bottomH (hi : Nat) : Bool := hi == 5 || hi == 6 || hi == 7

/-- `[0,2,5,7].includes(hi)` — corner handles. -/
def cornerH (hi : Nat) : Bool := hi == 0 || hi == 2 || hi == 5 || hi == 7

/-- The candidate box shared by the resize branches: `nx/ny/nw/nh` after the
four handle-direction `if`s, before any clamping. -/
def resizeCand (b : Box) (hi : Nat) (dx dy : ℚ) : Box :=
  ⟨if leftH hi then b.x + dx else b.x,
   if topH hi then b.y + dy else b.y,
   if leftH hi then b.w - dx else if rightH hi then b.w + dx else b.w,
   if topH hi then b.h - dy else if bottomH hi then b.h + dy else b.h⟩

/-- `_shiftConstrain` — on a corner handle with shift held, rescale uniformly
by the dominant signed factor, clamp both spans at 4, and re-anchor the
opposite edge for left/top handles; otherwise return the input unchanged. -/
def shiftConstrain (shiftDown : Bool) (hi : Nat) (b n : Box) : Box :=
  if shiftDown && cornerH hi then
    let scaleX := if b.w > 0 then n.w / b.w else 1
    let scaleY := if b.h > 0 then n.h / b.h else 1
    let scale := if |scaleY| ≤ |scaleX| then scaleX else scaleY
    let nw2 := b.w * scale
    let nh2 := b.h * scale
    let nw2 := if nw2 < 4 then 4 else nw2
    let nh2 := if nh2 < 4 then 4 else nh2
    ⟨if leftH hi then b.x + b.w - nw2 else n.x,
     if topH hi then b.y + b.h - nh2 else n.y, nw2, nh2⟩
  else n

/-- The target box of the `stroke` and `group` branches of `_applyResize`:
candidate, `if (nw < 4) nw = 4; if (nh < 4) nh = 4;`, then
`_shiftConstrain`. -/
def resizeTargetBox4 (b : Box) (hi : Nat) (dx dy : ℚ) (shiftDown : Bool) : Box :=
  let n := resizeCand b hi dx dy
  shiftConstrain shiftDown hi b
    ⟨n.x, n.y, if n.w < 4 then 4 else n.w, if n.h < 4 then 4 else n.h⟩

/-- The target box of the `image` branch of `_applyResize` (rich variant):
candidate, `if (nw < 10) nw = 10; if (nh < 10) nh = 10;`, then
`_shiftConstrain`. -/
def resizeTargetBox10 (b : Box) (hi : Nat) (dx dy : ℚ) (shiftDown : Bool) : Box :=
  let n := resizeCand b hi dx dy
  shiftConstrain shiftDown hi b
    ⟨n.x, n.y, if n.w < 10 then 10 else n.w, if n.h < 10 then 10 else n.h⟩

/-- One axis of the shape branch of `_applyResize`: move the low/high edge
by the local delta per the handle sets, then clamp the span at 4 by moving
the dragged edge back. -/
def shapeSpan (mn mx d : ℚ) (lowSide highSide : Bool) : ℚ × ℚ :=
  let l1 := if lowSide then mn + d else mn
  let l2 := if highSide then mx + d else mx
  if l2 - l1 < 4 then (if lowSide then (l2 - 4, l2) else (l1, l1 + 4))
  else (l1, l2)

/-- `_applyResize(x, y)` as a function of the pointer-down base clone, the
handle index, the drag start and the current pointer: the live object is
rebuilt from the base on every move, so the gesture's net effect is this pure
function.  The pointer delta is taken in the base's un-rotated local space. -/
def applyResize (E : Env) (base : Obj) (hi : Nat) (start mouse : Pt)
    (shiftDown : Bool) : Obj :=
  match boundsFromObj E base with
  | none => base
  | some ab =>
    let cx := ab.x + ab.w / 2
    let cy := ab.y + ab.h / 2
    let lm := rotatePoint E cx cy mouse.x mouse.y (-base.rotation)
    let ls := rotatePoint E cx cy start.x start.y (-base.rotation)
    let dx := lm.x - ls.x
    let dy := lm.y - ls.y
    match base with
    | .stroke i pts c sz o t r l =>
      let n := resizeTargetBox4 ab hi dx dy shiftDown
      let scaleX := if ab.w > 0 then n.w / ab.w else 1
      let scaleY := if ab.h > 0 then n.h / ab.h else 1
      .stroke i
        (pts.map fun p => ⟨n.x + (p.x - ab.x) * scaleX, n.y + (p.y - ab.y) * scaleY⟩)
        c sz o t r l
    | .text i x y lns fs c o r l =>
      let delta := if topH hi then -dy else if bottomH hi then dy else 0
      let scale := if ab.h > 0 then (ab.h + delta) / ab.h else 1
      .text i x y lns (max 6 ((if fs = 0 then 14 else fs) * scale)) c o r l
    | .group i ch r l =>
      let n := resizeTargetBox4 ab hi dx dy shiftDown
      .group i (ch.map fun c => scaleObjCoords ab n c) r l
    | .image i x y w h cr o r l =>
      let n := resizeTargetBox10 ⟨x, y, w, h⟩ hi dx dy shiftDown
      .image i n.x n.y n.w n.h cr o r l
    | .shape i k x1 y1 x2 y2 c sz o f cr sd r l =>
      let sb : Box := ⟨min x1 x2, min y1 y2, |x2 - x1|, |y2 - y1|⟩
      let p := shapeSpan (min x1 x2) (max x1 x2) dx (leftH hi) (rightH hi)
      let q := shapeSpan (min y1 y2) (max y1 y2) dy (topH hi) (bottomH hi)
      let n := shiftConstrain shiftDown hi sb ⟨p.1, q.1, p.2 - p.1, q.2 - q.1⟩
      let flipX := x2 < x1
      let flipY := y2 < y1
      .shape i k (if flipX then n.x + n.w else n.x) (if flipY then n.y + n.h else n.y)
        (if flipX then n.x else n.x + n.w) (if flipY then n.y else n.y + n.h)
        c sz o f cr sd r l

/-- The new multi-select box of `_applyGroupResize`: candidate from the raw
drag-start bounds `gb`, then the 10-unit clamp (repositioning left/top-anchored
handles), then the shift aspect lock (unclamped). -/
def groupResizeBox (gb : Box) (hi : Nat) (dx dy : ℚ) (shiftDown : Bool) : Box :=
  let n := resizeCand gb hi dx dy
  let nx := if n.w < 10 ∧ leftH hi then gb.x + gb.w - 10 else n.x
  let nw := if n.w < 10 then 10 else n.w
  let ny := if n.h < 10 ∧ topH hi then gb.y + gb.h - 10 else n.y
  let nh := if n.h < 10 then 10 else n.h
  if shiftDown && cornerH hi then
    let scaleX := if gb.w > 0 then nw / gb.w else 1
    let scaleY := if gb.h > 0 then nh / gb.h else 1
    let scale := if |scaleY| ≤ |scaleX| then scaleX else scaleY
    ⟨if leftH hi then gb.x + gb.w - gb.w * scale else nx,
     if topH hi then gb.y + gb.h - gb.h * scale else ny,
     gb.w * scale, gb.h * scale⟩
  else ⟨nx, ny, nw, nh⟩

/-- `_copyObjCoords(dst, src)` — positional coordinates from `src` onto
`dst`, leaving style fields; a type mismatch (unreachable: `src` is a scaled
clone of `dst`'s own base) leaves `dst`. -/
def copyObjCoords (dst src : Obj) : Obj :=
  match dst, src with
  | .stroke i _ c s o t r l, .stroke _ p _ _ _ _ _ _ => .stroke i p c s o t r l
  | .text i _ _ ls _ c o r l, .text _ x y _ fs _ _ _ _ => .text i x y ls fs c o r l
  | .image i _ _ _ _ cr o r l, .image _ x y w h _ _ _ _ => .image i x y w h cr o r l
  | .group i _ r l, .group _ ch _ _ => .group i ch r l
  | .shape i k _ _ _ _ c s o f cr sd r l, .shape _ _ x1 y1 x2 y2 _ _ _ _ _ _ _ _ =>
    .shape i k x1 y1 x2 y2 c s o f cr sd r l
  | d, _ => d

/-- `_applyGroupResize(x, y)` — every captured base (locked or not) is scaled
from the drag-start box to the new box and copied onto the live object. -/
def applyGroupResize (gb : Box) (hi : Nat) (start mouse : Pt)
    (shiftDown : Bool) (bases : List (Nat × Obj)) (objects : List Obj) :
    List Obj :=
  let newGb := groupResizeBox gb hi (mouse.x - start.x) (mouse.y - start.y) shiftDown
  objects.map fun o =>
    match bases.lookup o.id with
    | some b => copyObjCoords o (scaleObjCoords gb newGb b)
    | none => o

/-- Result of the plain (no-shift) object-hit branch of
`_handleSelectDown`. -/
structure DownHit where
  selectedIds : List Nat
  dragBases : List (Nat × Obj)
  isDragging : Bool
deriving Repr

/-- The non-shift object-hit branch of `_handleSelectDown` (rich variant),
reached when no rotation/resize handle was grabbed: replace the selection
unless the hit is already selected; begin a drag — capturing base clones of
the unlocked selected objects — only when the hit object is unlocked.
Returns `none` when nothing was hit (the marquee branch). -/
def handleSelectDownHit (E : Env) (s : State) (x y : ℚ) : Option DownHit :=
  match findObjectAt E s.objects x y with
  | none => none
  | some hit =>
    let sel := if s.selectedIds.contains hit.id then s.selectedIds else [hit.id]
    if hit.locked then some ⟨sel, [], false⟩
    else
      some ⟨sel,
        sel.filterMap fun i =>
          match getObjectById s.objects i with
          | some o => if o.locked then none else some (i, o)
          | none => none,
        true⟩

/-- `_handleSelectMove` in the dragging state: each selected object with a
captured base is re-positioned from its base by the pointer delta (under the
pairwise-distinct-ids invariant the per-id loop is this map). -/
def dragMove (sel : List Nat) (bases : List (Nat × Obj)) (dx dy : ℚ)
    (objects : List Obj) : List Obj :=
  objects.map fun o =>
    if sel.contains o.id then
      match bases.lookup o.id with
      | some b => moveFromBase dx dy b
      | none => o
    else o

instance : Inhabited Obj := ⟨.group 0 [] 0 false⟩

/-! ## History lemmas (C1, C2, C10) -/

/-- A concrete host environment for closed evaluations; its transcendental
components are never consulted on the rotation-0 inputs they are applied
to, and `defaultSize` is the app default 5. -/
def E0 : Env := ⟨fun _ => 1, fun _ => 0, fun _ _ => 0, 5⟩

theorem saveSnap_objects (s : State) : (saveSnap s).objects = s.objects := rfl

theorem saveSnap_selectedIds (s : State) :
    (saveSnap s).selectedIds = s.selectedIds := rfl

theorem saveSnap_nextId (s : State) : (saveSnap s).nextId = s.nextId := rfl

/-- The undo/redo view invariant: the pointer is in range and the live object
list equals the snapshot under the pointer. -/
structure ViewInv (s : State) : Prop where
  lb : 0 ≤ s.historyPtr
  ub : s.historyPtr < s.history.length
  view : s.objects = historyAt s.history s.historyPtr

/-- A state as `saveSnap` leaves it: the pointer sits on the just-pushed tail
snapshot, which equals the live object list. -/
def Committed (s : State) : Prop :=
  ViewInv s ∧ s.historyPtr = (s.history.length : Int) - 1

theorem saveSnap_history (s : State) :
    (saveSnap s).history =
      (let h := s.history.take (s.historyPtr + 1).toNat ++ [s.objects]
       if MAX_HISTORY < h.length then h.tail else h) := rfl

theorem getLast?_tail_of_two {α : Type} (l : List α) (h : 2 ≤ l.length) :
    l.tail.getLast? = l.getLast? := by
  cases l with
  | nil => simp at h
  | cons a t =>
    cases t with
    | nil => simp at h
    | cons b t2 => simp [List.getLast?_cons_cons]

theorem historyAt_last (h : List (List Obj)) (a : List Obj)
    (hl : h.getLast? = some a) : historyAt h ((h.length : Int) - 1) = a := by
  have hne : h ≠ [] := by rintro rfl; simp at hl
  have hlen : 0 < h.length := List.length_pos.mpr hne
  unfold historyAt
  have h1 : ((h.length : Int) - 1).toNat = h.length - 1 := by omega
  rw [h1, List.getD_eq_getElem h [] (by omega)]
  rw [List.getLast?_eq_getLast h hne] at hl
  have h2 := List.getLast_eq_getElem h hne
  have h3 := Option.some_injective _ hl
  rw [h2] at h3
  exact h3

theorem saveSnap_committed (s : State) : Committed (saveSnap s) := by
  have hlast : (saveSnap s).history.getLast? = some s.objects := by
    rw [saveSnap_history]
    simp only []
    split
    · rename_i hlen
      rw [getLast?_tail_of_two _ (by simp [MAX_HISTORY] at hlen ⊢; omega)]
      exact List.getLast?_concat _
    · exact List.getLast?_concat _
  have hne : (saveSnap s).history ≠ [] := by
    intro habs; rw [habs] at hlast; simp at hlast
  have hlen : 0 < (saveSnap s).history.length := List.length_pos.mpr hne
  have hptr : (saveSnap s).historyPtr = ((saveSnap s).history.length : Int) - 1 := rfl
  refine ⟨⟨?_, ?_, ?_⟩, hptr⟩
  · rw [hptr]; omega
  · rw [hptr]; omega
  · rw [hptr, saveSnap_objects, historyAt_last _ _ hlast]

theorem commitGesture_committed (s : State) (L : List Obj) :
    Committed (commitGesture s L) := saveSnap_committed _

theorem foldl_commitGesture_committed (Ls : List (List Obj)) :
    ∀ s : State, Committed s → Committed (Ls.foldl commitGesture s) := by
  induction Ls with
  | nil => intro s h; exact h
  | cons L Ls ih =>
    intro s _
    exact ih (commitGesture s L) (commitGesture_committed s L)

theorem runGestures_committed (Ls : List (List Obj)) :
    Committed (runGestures Ls) :=
  foldl_commitGesture_committed Ls initState (saveSnap_committed _)

theorem undo_eq (s : State) :
    undo s = if s.historyPtr ≤ 0 then { s with selectedIds := [] }
      else { s with
             selectedIds := [],
             historyPtr := s.historyPtr - 1,
             objects := cloneObjects (historyAt s.history (s.historyPtr - 1)) } := rfl

theorem redo_eq (s : State) :
    redo s = if (s.history.length : Int) - 1 ≤ s.historyPtr then { s with selectedIds := [] }
      else { s with
             selectedIds := [],
             historyPtr := s.historyPtr + 1,
             objects := cloneObjects (historyAt s.history (s.historyPtr + 1)) } := rfl

theorem undo_step (s : State) (h : ViewInv s) :
    ViewInv (undo s) ∧ (undo s).historyPtr = max 0 (s.historyPtr - 1) ∧
      (undo s).history = s.history := by
  rw [undo_eq]
  split
  · rename_i hp
    refine ⟨⟨h.lb, h.ub, h.view⟩, ?_, rfl⟩
    have := h.lb
    simp only []
    omega
  · rename_i hp
    have hub := h.ub
    have hlb := h.lb
    refine ⟨⟨by simp only []; omega, by simp only []; omega, rfl⟩, ?_, rfl⟩
    simp only []
    omega

theorem redo_step (s : State) (h : ViewInv s) :
    ViewInv (redo s) ∧
      (redo s).historyPtr = min ((s.history.length : Int) - 1) (s.historyPtr + 1) ∧
      (redo s).history = s.history := by
  rw [redo_eq]
  split
  · rename_i hp
    refine ⟨⟨h.lb, h.ub, h.view⟩, ?_, rfl⟩
    have := h.ub
    simp only []
    omega
  · rename_i hp
    have hub := h.ub
    have hlb := h.lb
    refine ⟨⟨by simp only []; omega, by simp only []; omega, rfl⟩, ?_, rfl⟩
    simp only []
    omega

theorem undo_iter (n : Nat) (s : State) (h : ViewInv s) :
    ViewInv ((undo^[n]) s) ∧
      ((undo^[n]) s).historyPtr = max 0 (s.historyPtr - n) ∧
      ((undo^[n]) s).history = s.history := by
  induction n generalizing s with
  | zero =>
    have := h.lb
    exact ⟨h, by simp only [Function.iterate_zero_apply]; omega,
      by simp [Function.iterate_zero_apply]⟩
  | succ n ih =>
    rw [Function.iterate_succ_apply]
    obtain ⟨h1, h2, h3⟩ := undo_step s h
    obtain ⟨ih1, ih2, ih3⟩ := ih (undo s) h1
    refine ⟨ih1, ?_, ih3.trans h3⟩
    rw [ih2, h2]
    have := h.lb
    omega

theorem redo_iter (n : Nat) (s : State) (h : ViewInv s) :
    ViewInv ((redo^[n]) s) ∧
      ((redo^[n]) s).historyPtr =
        min ((s.history.length : Int) - 1) (s.historyPtr + n) ∧
      ((redo^[n]) s).history = s.history := by
  induction n generalizing s with
  | zero =>
    have := h.ub
    exact ⟨h, by simp only [Function.iterate_zero_apply]; omega,
      by simp [Function.iterate_zero_apply]⟩
  | succ n ih =>
    rw [Function.iterate_succ_apply]
    obtain ⟨h1, h2, h3⟩ := redo_step s h
    obtain ⟨ih1, ih2, ih3⟩ := ih (redo s) h1
    refine ⟨ih1, ?_, ih3.trans h3⟩
    rw [ih2, h2, h3]
    have := h.ub
    have := h.lb
    omega

/-- **C1** — Undo/redo round-trip identity: for any sequence of `N` committed
gestures, `undo()` applied `N` times and then `redo()` applied `N` times
reproduces the exact final object list (deep-equal; clones are the identity
on values), leaving the history stack and pointer as they were. -/
theorem undo_redo_roundtrip (Ls : List (List Obj)) :
    ((redo^[Ls.length]) ((undo^[Ls.length]) (runGestures Ls))).objects =
      (runGestures Ls).objects ∧
    ((redo^[Ls.length]) ((undo^[Ls.length]) (runGestures Ls))).history =
      (runGestures Ls).history ∧
    ((redo^[Ls.length]) ((undo^[Ls.length]) (runGestures Ls))).historyPtr =
      (runGestures Ls).historyPtr := by
  obtain ⟨hv, hptr⟩ := runGestures_committed Ls
  obtain ⟨uv, up, uh⟩ := undo_iter Ls.length (runGestures Ls) hv
  obtain ⟨rv, rp, rh⟩ := redo_iter Ls.length _ uv
  have hlen : 0 < (runGestures Ls).history.length := by
    have := hv.ub
    have := hv.lb
    omega
  have hfinalptr :
      ((redo^[Ls.length]) ((undo^[Ls.length]) (runGestures Ls))).historyPtr =
        (runGestures Ls).historyPtr := by
    rw [rp, uh, up, hptr]
    omega
  refine ⟨?_, rh.trans uh, hfinalptr⟩
  have hview := rv.view
  rw [hview, rh.trans uh, hfinalptr, ← hv.view]

/-- A concrete state with two history entries and the pointer at the tail. -/
def c10s : State :=
  { objects := [], history := [[], []], historyPtr := 1, nextId := 1,
    selectedIds := [] }

/-- **C10 counterexample** — a non-boundary `undo()` moves `historyPtr`, so
state besides the selection and the object list *is* affected, contradicting
the claim's "no other state besides selection and the object list is
affected". -/
theorem undo_moves_history_pointer :
    (undo c10s).historyPtr ≠ c10s.historyPtr := by decide

/-- **C10 (amended)** — `undo()`/`redo()` clear the selection unconditionally,
before the pointer-range check: even a boundary undo/redo, which leaves the
object list, the pointer and the history stack unchanged, still empties the
selection; besides the selection, the object list and the history pointer,
no state is affected. -/
theorem undo_redo_clear_selection_frame (s : State) :
    (undo s = if s.historyPtr ≤ 0 then { s with selectedIds := [] }
      else { s with
             selectedIds := [],
             historyPtr := s.historyPtr - 1,
             objects := cloneObjects (historyAt s.history (s.historyPtr - 1)) }) ∧
    (redo s = if (s.history.length : Int) - 1 ≤ s.historyPtr then { s with selectedIds := [] }
      else { s with
             selectedIds := [],
             historyPtr := s.historyPtr + 1,
             objects := cloneObjects (historyAt s.history (s.historyPtr + 1)) }) :=
  ⟨undo_eq s, redo_eq s⟩

/-! ## History cap (C2) -/

/-- The last `n` entries of a list. -/
def lastN {α : Type} (n : Nat) (l : List α) : List α := l.drop (l.length - n)

theorem lastN_of_le {α : Type} (n : Nat) (l : List α) (h : l.length ≤ n) :
    lastN n l = l := by
  unfold lastN
  have : l.length - n = 0 := by omega
  rw [this, List.drop_zero]

theorem lastN_length {α : Type} (n : Nat) (l : List α) :
    (lastN n l).length = min n l.length := by
  unfold lastN
  rw [List.length_drop]
  omega

theorem lastN_snoc_of_le {α : Type} (pre : List α) (L : α)
    (hpre : MAX_HISTORY ≤ pre.length) :
    (lastN MAX_HISTORY pre ++ [L]).tail = lastN MAX_HISTORY (pre ++ [L]) := by
  unfold lastN
  have hlen : (List.drop (pre.length - MAX_HISTORY) pre).length = MAX_HISTORY := by
    rw [List.length_drop]
    omega
  have hne : List.drop (pre.length - MAX_HISTORY) pre ≠ [] := by
    intro h
    rw [h] at hlen
    simp [MAX_HISTORY] at hlen
  have hm : 1 ≤ MAX_HISTORY := by decide
  rw [List.tail_append_of_ne_nil hne, List.tail_drop]
  rw [List.length_append, List.length_cons, List.length_nil]
  have h1 : pre.length + 0 + 1 - MAX_HISTORY = (pre.length - MAX_HISTORY) + 1 := by
    omega
  rw [h1, List.drop_append_of_le_length (by omega)]

theorem lastN_snoc_of_lt {α : Type} (pre : List α) (L : α)
    (h : pre.length < MAX_HISTORY) :
    lastN MAX_HISTORY pre ++ [L] = lastN MAX_HISTORY (pre ++ [L]) := by
  rw [lastN_of_le _ _ (by omega), lastN_of_le]
  rw [List.length_append, List.length_cons, List.length_nil]
  omega

theorem commitGesture_history (s : State) (L : List Obj)
    (pre : List (List Obj))
    (hh : s.history = lastN MAX_HISTORY pre)
    (hptr : s.historyPtr = (s.history.length : Int) - 1) :
    (commitGesture s L).history = lastN MAX_HISTORY (pre ++ [L]) := by
  show (saveSnap { s with objects := L }).history = _
  rw [saveSnap_history]
  simp only []
  have htake : ({ s with objects := L } : State).history.take
      (({ s with objects := L } : State).historyPtr + 1).toNat = s.history := by
    show s.history.take (s.historyPtr + 1).toNat = s.history
    rw [hptr]
    have h1 : ((s.history.length : Int) - 1 + 1).toNat = s.history.length := by
      omega
    rw [h1, List.take_length]
  rw [htake]
  have hslen : s.history.length = min MAX_HISTORY pre.length := by
    rw [hh, lastN_length]
  by_cases hc : MAX_HISTORY ≤ pre.length
  · have h50 : s.history.length = MAX_HISTORY := by omega
    rw [if_pos (by rw [List.length_append, List.length_cons, List.length_nil]; omega)]
    show (s.history ++ [L]).tail = _
    rw [hh]
    exact lastN_snoc_of_le pre L hc
  · have h50 : s.history.length = pre.length := by omega
    rw [if_neg (by rw [List.length_append, List.length_cons, List.length_nil]; omega)]
    show s.history ++ [L] = _
    rw [hh]
    exact lastN_snoc_of_lt pre L (by omega)

/-- The invariant maintained by a run of committed gestures: the history is
the last `MAX_HISTORY` snapshots of the full snapshot sequence `[] :: Ls`
(the blank `init()` snapshot followed by one snapshot per gesture). -/
theorem runGestures_history (Ls : List (List Obj)) :
    (runGestures Ls).history = lastN MAX_HISTORY ([] :: Ls) := by
  have main : ∀ (Ls : List (List Obj)) (s : State) (pre : List (List Obj))
      (hh : s.history = lastN MAX_HISTORY pre)
      (hptr : s.historyPtr = (s.history.length : Int) - 1),
      (Ls.foldl commitGesture s).history = lastN MAX_HISTORY (pre ++ Ls) := by
    intro Ls
    induction Ls with
    | nil =>
      intro s pre hh hptr
      simpa using hh
    | cons L Ls ih =>
      intro s pre hh hptr
      have h1 := commitGesture_history s L pre hh hptr
      have h3 := (saveSnap_committed ({ s with objects := L } : State)).2
      have := ih (commitGesture s L) (pre ++ [L]) h1 h3
      rw [List.foldl_cons]
      rw [List.append_assoc] at this
      simpa using this
  unfold runGestures
  have hinit : initState.history = lastN MAX_HISTORY [[]] := rfl
  have hptr0 : initState.historyPtr = (initState.history.length : Int) - 1 := rfl
  have := main Ls initState [[]] hinit hptr0
  simpa using this

theorem getD_drop {α : Type} (l : List α) (k : Nat) (d : α) :
    (l.drop k).getD 0 d = l.getD k d := by
  rw [List.getD_eq_getElem?_getD, List.getD_eq_getElem?_getD, List.getElem?_drop]
  simp

/-- **C2** — History cap with FIFO eviction: after at least `MAX_HISTORY`
committed gestures, exactly 50 snapshots remain; they are the *last* 50 of
the snapshot sequence (so the initial blank snapshot has been evicted first,
FIFO), and `undo()` repeated 50 times lands on the oldest retained snapshot —
the result of gesture `N - 49` — not on the original blank state. -/
theorem history_cap_fifo (Ls : List (List Obj)) (h50 : MAX_HISTORY ≤ Ls.length) :
    (runGestures Ls).history.length = 50 ∧
    (runGestures Ls).history = Ls.drop (Ls.length - MAX_HISTORY) ∧
    ((undo^[MAX_HISTORY]) (runGestures Ls)).objects =
      Ls.getD (Ls.length - MAX_HISTORY) [] := by
  have hm : MAX_HISTORY = 50 := rfl
  have hist := runGestures_history Ls
  have hdrop : (runGestures Ls).history = Ls.drop (Ls.length - MAX_HISTORY) := by
    rw [hist]
    unfold lastN
    rw [List.length_cons]
    have h1 : Ls.length + 1 - MAX_HISTORY = (Ls.length - MAX_HISTORY) + 1 := by
      omega
    rw [h1, List.drop_succ_cons]
  have hlen : (runGestures Ls).history.length = 50 := by
    rw [hist, lastN_length, List.length_cons]
    omega
  refine ⟨hlen, hdrop, ?_⟩
  obtain ⟨hv, hptr⟩ := runGestures_committed Ls
  obtain ⟨uv, up, uh⟩ := undo_iter MAX_HISTORY (runGestures Ls) hv
  have hview := uv.view
  rw [hview, uh, up, hptr, hlen, hm]
  rw [hm] at hdrop
  have h0 : (0 : Int) ⊔ ((((50 : Nat)) : Int) - 1 - (((50 : Nat)) : Int)) = 0 := by
    omega
  rw [h0]
  unfold historyAt
  rw [hdrop]
  exact getD_drop Ls (Ls.length - 50) []

/-- Witness for C2: a concrete run of exactly 50 committed gestures. -/
theorem history_cap_fifo_witness :
    MAX_HISTORY ≤ (List.replicate 50 ([] : List Obj)).length ∧
    ((runGestures (List.replicate 50 ([] : List Obj))).history.length = 50 ∧
     (runGestures (List.replicate 50 ([] : List Obj))).history =
       (List.replicate 50 ([] : List Obj)).drop
         ((List.replicate 50 ([] : List Obj)).length - MAX_HISTORY) ∧
     ((undo^[MAX_HISTORY]) (runGestures (List.replicate 50 ([] : List Obj)))).objects =
       (List.replicate 50 ([] : List Obj)).getD
         ((List.replicate 50 ([] : List Obj)).length - MAX_HISTORY) []) :=
  ⟨by simp [MAX_HISTORY], history_cap_fifo _ (by simp [MAX_HISTORY])⟩

/-! ## Fold min/max characterizations (C4) -/

theorem foldl_min_le_init {α : Type} [LinearOrder α] (l : List α) (a : α) :
    l.foldl min a ≤ a := by
  induction l generalizing a with
  | nil => exact le_refl a
  | cons b t ih =>
    exact le_trans (ih (min a b)) (min_le_left a b)

theorem foldl_min_le_mem {α : Type} [LinearOrder α] (l : List α) (a : α) :
    ∀ x ∈ l, l.foldl min a ≤ x := by
  induction l generalizing a with
  | nil => intro x hx; simp at hx
  | cons b t ih =>
    intro x hx
    rcases List.mem_cons.mp hx with rfl | hx
    · exact le_trans (foldl_min_le_init t (min a x)) (min_le_right a x)
    · exact ih (min a b) x hx

theorem foldl_min_attained {α : Type} [LinearOrder α] (l : List α) (a : α) :
    l.foldl min a = a ∨ l.foldl min a ∈ l := by
  induction l generalizing a with
  | nil => exact Or.inl rfl
  | cons b t ih =>
    rcases ih (min a b) with h | h
    · rcases min_choice a b with hc | hc
      · exact Or.inl (by rw [List.foldl_cons, h, hc])
      · exact Or.inr (by rw [List.foldl_cons, h, hc]; exact List.mem_cons_self b t)
    · exact Or.inr (List.mem_cons_of_mem b h)

theorem foldl_max_init_le {α : Type} [LinearOrder α] (l : List α) (a : α) :
    a ≤ l.foldl max a := by
  induction l generalizing a with
  | nil => exact le_refl a
  | cons b t ih =>
    exact le_trans (le_max_left a b) (ih (max a b))

theorem foldl_max_mem_le {α : Type} [LinearOrder α] (l : List α) (a : α) :
    ∀ x ∈ l, x ≤ l.foldl max a := by
  induction l generalizing a with
  | nil => intro x hx; simp at hx
  | cons b t ih =>
    intro x hx
    rcases List.mem_cons.mp hx with rfl | hx
    · exact le_trans (le_max_right a x) (foldl_max_init_le t (max a x))
    · exact ih (max a b) x hx

theorem foldl_max_attained {α : Type} [LinearOrder α] (l : List α) (a : α) :
    l.foldl max a = a ∨ l.foldl max a ∈ l := by
  induction l generalizing a with
  | nil => exact Or.inl rfl
  | cons b t ih =>
    rcases ih (max a b) with h | h
    · rcases max_choice a b with hc | hc
      · exact Or.inl (by rw [List.foldl_cons, h, hc])
      · exact Or.inr (by rw [List.foldl_cons, h, hc]; exact List.mem_cons_self b t)
    · exact Or.inr (List.mem_cons_of_mem b h)

/-- Modelled from the spec's words, for comparison only (C4): "stroke:
min/max of points, padded by *half* line width on all sides". -/
def strokeBoundsHalfSpec (E : Env) (pts : List Pt) (size : ℚ) : Option Box :=
  match pts with
  | [] => none
  | p0 :: _ =>
    let minX := pts.foldl (fun a p => min a p.x) p0.x
    let minY := pts.foldl (fun a p => min a p.y) p0.y
    let maxX := pts.foldl (fun a p => max a p.x) p0.x
    let maxY := pts.foldl (fun a p => max a p.y) p0.y
    let pad := sizeOrDefault E size / 2
    some ⟨minX - pad, minY - pad, maxX - minX + pad * 2, maxY - minY + pad * 2⟩

/-- **C4 counterexample** — a one-point stroke of width 4: the code pads the
point's box by the full width 4 on each side (a box of span 8), not by half
the width as the claim states (span 4). -/
theorem stroke_bounds_half_pad_false :
    boundsFromObj E0 (.stroke 1 [⟨0, 0⟩] "#000000" 4 1 "pencil" 0 false) =
      some ⟨-4, -4, 8, 8⟩ ∧
    strokeBoundsHalfSpec E0 [⟨0, 0⟩] 4 = some ⟨-2, -2, 4, 4⟩ ∧
    some (⟨-4, -4, 8, 8⟩ : Box) ≠ some (⟨-2, -2, 4, 4⟩ : Box) := by
  refine ⟨?_, ?_, by simp⟩
  · show boundsFromObj E0 (.stroke 1 [⟨0, 0⟩] "#000000" 4 1 "pencil" 0 false) = _
    simp only [boundsFromObj, sizeOrDefault, E0, List.foldl_cons, List.foldl_nil]
    norm_num
  · show strokeBoundsHalfSpec E0 [⟨0, 0⟩] 4 = _
    simp only [strokeBoundsHalfSpec, sizeOrDefault, E0, List.foldl_cons, List.foldl_nil]
    norm_num

/-- **C4 (amended)** — stroke local bounds: for every stroke with at least
one sample point, the un-rotated local AABB is the min/max rectangle of the
sample points padded by the *full* line width `obj.size || this.size` on all
four sides (each padded edge is both a bound and attained by some point). -/
theorem stroke_localBounds (E : Env) (i : Nat) (p0 : Pt) (ps : List Pt)
    (c : String) (sz op : ℚ) (tool : String) (r : ℚ) (lk : Bool) :
    ∃ b : Box,
      boundsFromObj E (.stroke i (p0 :: ps) c sz op tool r lk) = some b ∧
      (∀ p ∈ p0 :: ps,
        b.x ≤ p.x - sizeOrDefault E sz ∧ p.x + sizeOrDefault E sz ≤ b.x + b.w ∧
        b.y ≤ p.y - sizeOrDefault E sz ∧ p.y + sizeOrDefault E sz ≤ b.y + b.h) ∧
      (∃ p ∈ p0 :: ps, b.x = p.x - sizeOrDefault E sz) ∧
      (∃ p ∈ p0 :: ps, b.x + b.w = p.x + sizeOrDefault E sz) ∧
      (∃ p ∈ p0 :: ps, b.y = p.y - sizeOrDefault E sz) ∧
      (∃ p ∈ p0 :: ps, b.y + b.h = p.y + sizeOrDefault E sz) := by
  set pts := p0 :: ps with hpts
  set pad := sizeOrDefault E sz with hpad
  set minX := pts.foldl (fun a p => min a p.x) p0.x with hminX
  set minY := pts.foldl (fun a p => min a p.y) p0.y with hminY
  set maxX := pts.foldl (fun a p => max a p.x) p0.x with hmaxX
  set maxY := pts.foldl (fun a p => max a p.y) p0.y with hmaxY
  have hminX' : ∀ p ∈ pts, minX ≤ p.x := by
    intro p hp
    rw [hminX, ← List.foldl_map Pt.x min]
    exact foldl_min_le_mem _ _ p.x (List.mem_map_of_mem Pt.x hp)
  have hminY' : ∀ p ∈ pts, minY ≤ p.y := by
    intro p hp
    rw [hminY, ← List.foldl_map Pt.y min]
    exact foldl_min_le_mem _ _ p.y (List.mem_map_of_mem Pt.y hp)
  have hmaxX' : ∀ p ∈ pts, p.x ≤ maxX := by
    intro p hp
    rw [hmaxX, ← List.foldl_map Pt.x max]
    exact foldl_max_mem_le _ _ p.x (List.mem_map_of_mem Pt.x hp)
  have hmaxY' : ∀ p ∈ pts, p.y ≤ maxY := by
    intro p hp
    rw [hmaxY, ← List.foldl_map Pt.y max]
    exact foldl_max_mem_le _ _ p.y (List.mem_map_of_mem Pt.y hp)
  have hminXa : ∃ p ∈ pts, minX = p.x := by
    rw [hminX, ← List.foldl_map Pt.x min]
    rcases foldl_min_attained (pts.map Pt.x) p0.x with h | h
    · exact ⟨p0, by rw [hpts]; exact List.mem_cons_self _ _, h⟩
    · obtain ⟨p, hp, hpx⟩ := List.mem_map.mp h
      exact ⟨p, hp, hpx.symm⟩
  have hminYa : ∃ p ∈ pts, minY = p.y := by
    rw [hminY, ← List.foldl_map Pt.y min]
    rcases foldl_min_attained (pts.map Pt.y) p0.y with h | h
    · exact ⟨p0, by rw [hpts]; exact List.mem_cons_self _ _, h⟩
    · obtain ⟨p, hp, hpy⟩ := List.mem_map.mp h
      exact ⟨p, hp, hpy.symm⟩
  have hmaxXa : ∃ p ∈ pts, maxX = p.x := by
    rw [hmaxX, ← List.foldl_map Pt.x max]
    rcases foldl_max_attained (pts.map Pt.x) p0.x with h | h
    · exact ⟨p0, by rw [hpts]; exact List.mem_cons_self _ _, h⟩
    · obtain ⟨p, hp, hpx⟩ := List.mem_map.mp h
      exact ⟨p, hp, hpx.symm⟩
  have hmaxYa : ∃ p ∈ pts, maxY = p.y := by
    rw [hmaxY, ← List.foldl_map Pt.y max]
    rcases foldl_max_attained (pts.map Pt.y) p0.y with h | h
    · exact ⟨p0, by rw [hpts]; exact List.mem_cons_self _ _, h⟩
    · obtain ⟨p, hp, hpy⟩ := List.mem_map.mp h
      exact ⟨p, hp, hpy.symm⟩
  refine ⟨⟨minX - pad, minY - pad, maxX - minX + pad * 2, maxY - minY + pad * 2⟩,
    rfl, ?_, ?_, ?_, ?_, ?_⟩
  · intro p hp
    have h1 := hminX' p hp
    have h2 := hmaxX' p hp
    have h3 := hminY' p hp
    have h4 := hmaxY' p hp
    constructor
    · simp only []
      linarith
    constructor
    · simp only []
      linarith
    constructor
    · simp only []
      linarith
    · simp only []
      linarith
  · obtain ⟨p, hp, he⟩ := hminXa
    exact ⟨p, hp, by simp only []; linarith⟩
  · obtain ⟨p, hp, he⟩ := hmaxXa
    exact ⟨p, hp, by simp only []; linarith⟩
  · obtain ⟨p, hp, he⟩ := hminYa
    exact ⟨p, hp, by simp only []; linarith⟩
  · obtain ⟨p, hp, he⟩ := hmaxYa
    exact ⟨p, hp, by simp only []; linarith⟩

/-! ## Stroke hit-testing (C3) -/

/-- Modelled from the spec's words for comparison (C3): the point lies within
Euclidean distance `d` of the segment `a`–`b` (squared form, equivalent to
`hypot ≤ d` over the reals since the distance is nonnegative). -/
def withinDistOfSegment (p a b : Pt) (d : ℚ) : Prop :=
  0 ≤ d ∧ distSqToSegment p.x p.y a.x a.y b.x b.y ≤ d ^ 2

theorem hitSegments_iff (x y s : ℚ) (pts : List Pt) :
    hitSegments x y s pts = true ↔
      ∃ j, j + 1 < pts.length ∧
        distToSegmentLe x y (pts.getD j ⟨0, 0⟩).x (pts.getD j ⟨0, 0⟩).y
          (pts.getD (j + 1) ⟨0, 0⟩).x (pts.getD (j + 1) ⟨0, 0⟩).y s = true := by
  induction pts with
  | nil =>
    simp [hitSegments]
  | cons p1 rest ih =>
    cases rest with
    | nil =>
      simp [hitSegments]
    | cons p2 rest2 =>
      rw [show hitSegments x y s (p1 :: p2 :: rest2) =
        (distToSegmentLe x y p1.x p1.y p2.x p2.y s ||
          hitSegments x y s (p2 :: rest2)) from rfl]
      rw [Bool.or_eq_true]
      constructor
      · rintro (h | h)
        · exact ⟨0, by simp, by simpa using h⟩
        · obtain ⟨j, hj, hd⟩ := ih.mp h
          refine ⟨j + 1, by simpa using hj, ?_⟩
          simpa using hd
      · rintro ⟨j, hj, hd⟩
        cases j with
        | zero => exact Or.inl (by simpa using hd)
        | succ j =>
          refine Or.inr (ih.mpr ⟨j, by simpa using hj, ?_⟩)
          simpa using hd

/-- **C3 (amended)** — stroke hit-test threshold: for every stroke object and
every query point, `_hitTest` returns true exactly when the point, after
inverse-rotation into the stroke's local space, lies within distance
`(size || default) + pad` — the FULL stroke width plus pad, not `size/2 +
pad` — of at least one segment between consecutive sample points. -/
theorem hitTest_stroke_iff_segment_within (E : Env) (i : Nat) (pts : List Pt)
    (c : String) (sz op : ℚ) (tool : String) (r : ℚ) (lk : Bool)
    (x y pad : ℚ) :
    hitTest E (.stroke i pts c sz op tool r lk) x y pad = true ↔
      ∃ j, j + 1 < pts.length ∧
        withinDistOfSegment
          (localPoint E (.stroke i pts c sz op tool r lk) x y)
          (pts.getD j ⟨0, 0⟩) (pts.getD (j + 1) ⟨0, 0⟩)
          (sizeOrDefault E sz + pad) := by
  rw [show hitTest E (.stroke i pts c sz op tool r lk) x y pad =
    hitStroke E pts sz (localPoint E (.stroke i pts c sz op tool r lk) x y).x
      (localPoint E (.stroke i pts c sz op tool r lk) x y).y pad from rfl]
  unfold hitStroke
  cases pts with
  | nil => simp
  | cons p ps =>
    rw [hitSegments_iff]
    unfold withinDistOfSegment distToSegmentLe
    simp only [Bool.and_eq_true, decide_eq_true_eq]

/-- A concrete two-point stroke of width 4 along the x-axis. -/
def c3stroke : Obj := .stroke 1 [⟨0, 0⟩, ⟨10, 0⟩] "#000000" 4 1 "pencil" 0 false

/-- **C3 counterexample** — the point `(0,3)` at distance 3 from the single
segment of a width-4 stroke: `_hitTest` accepts it (3 ≤ 4 = size + pad), but
the claim's `size/2 + pad = 2` threshold rejects it, refuting the claimed
equivalence at this input. -/
theorem hitStroke_half_threshold_false :
    hitTest E0 c3stroke 0 3 0 = true ∧
    ¬ withinDistOfSegment (localPoint E0 c3stroke 0 3) ⟨0, 0⟩ ⟨10, 0⟩
        (4 / 2 + 0) := by
  have hlocal : localPoint E0 c3stroke 0 3 = ⟨0, 3⟩ := by
    simp [localPoint, c3stroke, Obj.rotation]
  have hdist : distSqToSegment 0 3 0 0 10 0 = 9 := by
    unfold distSqToSegment
    norm_num
  constructor
  · rw [show hitTest E0 c3stroke 0 3 0 =
      hitStroke E0 [⟨0, 0⟩, ⟨10, 0⟩] 4 (localPoint E0 c3stroke 0 3).x
        (localPoint E0 c3stroke 0 3).y 0 from rfl]
    rw [hlocal]
    unfold hitStroke hitSegments distToSegmentLe sizeOrDefault
    rw [hdist]
    norm_num [E0]
  · rw [hlocal]
    unfold withinDistOfSegment
    rw [hdist]
    norm_num

/-! ## Marquee selection (C7) -/

theorem mem_selAdd (acc : List Nat) (j i : Nat) :
    i ∈ selAdd acc j ↔ i ∈ acc ∨ i = j := by
  unfold selAdd
  split
  · rename_i h
    constructor
    · exact Or.inl
    · rintro (h' | rfl)
      · exact h'
      · exact List.mem_of_elem_eq_true h
  · simp [List.mem_append]

theorem mem_marqueeFold (E : Env) (mx1 my1 mx2 my2 : ℚ) (l : List Obj)
    (acc : List Nat) (i : Nat) :
    (i ∈ l.foldl (marqueeStep E mx1 my1 mx2 my2) acc) ↔
    (i ∈ acc ∨ ∃ o ∈ l, o.id = i ∧ ∃ b, getAxisAlignedBounds E o = some b ∧
      (b.x < mx2 ∧ mx1 < b.x + b.w ∧ b.y < my2 ∧ my1 < b.y + b.h)) := by
  induction l generalizing acc with
  | nil => simp
  | cons o rest ih =>
    rw [List.foldl_cons, ih, List.exists_mem_cons_iff]
    rcases hb : getAxisAlignedBounds E o with _ | b
    · rw [show marqueeStep E mx1 my1 mx2 my2 acc o = acc by
        unfold marqueeStep; rw [hb]]
      simp [hb]
    · by_cases hov : b.x < mx2 ∧ mx1 < b.x + b.w ∧ b.y < my2 ∧ my1 < b.y + b.h
      · rw [show marqueeStep E mx1 my1 mx2 my2 acc o = selAdd acc o.id by
          unfold marqueeStep; rw [hb]; exact if_pos hov]
        rw [mem_selAdd]
        simp only [hb, Option.some.injEq]
        constructor
        · rintro ((h | rfl) | h)
          · exact Or.inl h
          · exact Or.inr (Or.inl ⟨rfl, b, rfl, hov⟩)
          · exact Or.inr (Or.inr h)
        · rintro (h | ⟨hoid, b', hb', hov'⟩ | h)
          · exact Or.inl (Or.inl h)
          · exact Or.inl (Or.inr hoid.symm)
          · exact Or.inr h
      · rw [show marqueeStep E mx1 my1 mx2 my2 acc o = acc by
          unfold marqueeStep; rw [hb]; exact if_neg hov]
        simp only [hb, Option.some.injEq]
        constructor
        · rintro (h | h)
          · exact Or.inl h
          · exact Or.inr (Or.inr h)
        · rintro (h | ⟨hoid, b', hb', hov'⟩ | h)
          · exact Or.inl h
          · exact absurd (hb' ▸ hov') hov
          · exact Or.inr h

/-- Three non-overlapping filled rectangles at x-ranges `[0,10]`, `[20,30]`,
`[40,50]` (ids 1, 2, 3). -/
def demo3 : State :=
  { objects := [.shape 1 "rect" 0 0 10 10 "#000000" 2 1 true 0 3 0 false,
                .shape 2 "rect" 20 0 30 10 "#000000" 2 1 true 0 3 0 false,
                .shape 3 "rect" 40 0 50 10 "#000000" 2 1 true 0 3 0 false],
    history := [[]], historyPtr := 0, nextId := 4, selectedIds := [] }

theorem finishMarquee_selectedIds (E : Env) (ms me : Pt) (s : State) :
    (finishMarquee E ms me s).selectedIds =
      if 4 < max ms.x me.x - min ms.x me.x ∨ 4 < max ms.y me.y - min ms.y me.y
      then s.objects.foldl
        (marqueeStep E (min ms.x me.x) (min ms.y me.y) (max ms.x me.x)
          (max ms.y me.y)) []
      else s.selectedIds := by
  unfold finishMarquee
  dsimp only
  split
  · rfl
  · rfl

/-- **C7** — Marquee selection: on release, exactly those objects whose
rotation-aware AABB strictly overlaps the marquee rectangle are selected;
when the pointer moved at most 4 units on both axes the gesture is a no-op
click leaving the selection cleared.  In particular, for the three rectangles
of `demo3` and a marquee covering x `[15,35]`, exactly the middle object
(id 2) is selected. -/
theorem marquee_overlap_selection (E : Env) (ms me : Pt) (s : State) :
    (∀ i : Nat, i ∈ (marqueeGesture E ms me s).selectedIds ↔
      ((4 < max ms.x me.x - min ms.x me.x ∨ 4 < max ms.y me.y - min ms.y me.y) ∧
       ∃ o ∈ s.objects, o.id = i ∧ ∃ b, getAxisAlignedBounds E o = some b ∧
         (b.x < max ms.x me.x ∧ min ms.x me.x < b.x + b.w ∧
          b.y < max ms.y me.y ∧ min ms.y me.y < b.y + b.h))) ∧
    (¬(4 < max ms.x me.x - min ms.x me.x ∨ 4 < max ms.y me.y - min ms.y me.y) →
      (marqueeGesture E ms me s).selectedIds = []) ∧
    (marqueeGesture E0 ⟨15, -5⟩ ⟨35, 20⟩ demo3).selectedIds = [2] := by
  have hchar : ∀ (E : Env) (ms me : Pt) (s : State),
      (marqueeGesture E ms me s).selectedIds =
        if 4 < max ms.x me.x - min ms.x me.x ∨ 4 < max ms.y me.y - min ms.y me.y
        then s.objects.foldl
          (marqueeStep E (min ms.x me.x) (min ms.y me.y) (max ms.x me.x)
            (max ms.y me.y)) []
        else [] := by
    intro E ms me s
    unfold marqueeGesture
    rw [finishMarquee_selectedIds]
  refine ⟨?_, ?_, ?_⟩
  · intro i
    rw [hchar]
    split
    · rename_i hmv
      rw [mem_marqueeFold]
      simp only [List.not_mem_nil, false_or]
      constructor
      · intro h
        exact ⟨hmv, h⟩
      · rintro ⟨_, h⟩
        exact h
    · rename_i hmv
      simp only [List.not_mem_nil, false_iff]
      rintro ⟨h, _⟩
      exact hmv h
  · intro hmv
    rw [hchar, if_neg hmv]
  · rw [hchar]
    rw [if_pos (by norm_num)]
    have hmin1 : min (15 : ℚ) 35 = 15 := by norm_num
    have hmax1 : max (15 : ℚ) 35 = 35 := by norm_num
    have hmin2 : min (-5 : ℚ) 20 = -5 := by norm_num
    have hmax2 : max (-5 : ℚ) 20 = 20 := by norm_num
    rw [show (⟨15, -5⟩ : Pt).x = (15 : ℚ) from rfl, show (⟨35, 20⟩ : Pt).x = (35 : ℚ) from rfl,
        show (⟨15, -5⟩ : Pt).y = (-5 : ℚ) from rfl, show (⟨35, 20⟩ : Pt).y = (20 : ℚ) from rfl,
        hmin1, hmax1, hmin2, hmax2]
    have h1 : getAxisAlignedBounds E0
        (.shape 1 "rect" 0 0 10 10 "#000000" 2 1 true 0 3 0 false) =
        some ⟨0, 0, 10, 10⟩ := by
      unfold getAxisAlignedBounds boundsFromObj Obj.rotation
      norm_num
    have h2 : getAxisAlignedBounds E0
        (.shape 2 "rect" 20 0 30 10 "#000000" 2 1 true 0 3 0 false) =
        some ⟨20, 0, 10, 10⟩ := by
      unfold getAxisAlignedBounds boundsFromObj Obj.rotation
      norm_num
    have h3 : getAxisAlignedBounds E0
        (.shape 3 "rect" 40 0 50 10 "#000000" 2 1 true 0 3 0 false) =
        some ⟨40, 0, 10, 10⟩ := by
      unfold getAxisAlignedBounds boundsFromObj Obj.rotation
      norm_num
    show List.foldl (marqueeStep E0 15 (-5) 35 20) []
      [.shape 1 "rect" 0 0 10 10 "#000000" 2 1 true 0 3 0 false,
       .shape 2 "rect" 20 0 30 10 "#000000" 2 1 true 0 3 0 false,
       .shape 3 "rect" 40 0 50 10 "#000000" 2 1 true 0 3 0 false] = [2]
    rw [List.foldl_cons, show marqueeStep E0 15 (-5) 35 20 []
        (.shape 1 "rect" 0 0 10 10 "#000000" 2 1 true 0 3 0 false) = [] by
      unfold marqueeStep
      rw [h1]
      dsimp only
      rw [if_neg (by norm_num)]]
    rw [List.foldl_cons, show marqueeStep E0 15 (-5) 35 20 []
        (.shape 2 "rect" 20 0 30 10 "#000000" 2 1 true 0 3 0 false) = [2] by
      unfold marqueeStep
      rw [h2]
      dsimp only
      rw [if_pos (by norm_num)]
      rfl]
    rw [List.foldl_cons, show marqueeStep E0 15 (-5) 35 20 [2]
        (.shape 3 "rect" 40 0 50 10 "#000000" 2 1 true 0 3 0 false) = [2] by
      unfold marqueeStep
      rw [h3]
      dsimp only
      rw [if_neg (by norm_num)]]
    rfl

/-! ## Resize minimum clamp (C5) -/

theorem shiftConstrain_false (hi : Nat) (b n : Box) :
    shiftConstrain false hi b n = n := by
  unfold shiftConstrain
  simp

theorem ite_lt_eq_max (m c : ℚ) : (if c < m then m else c) = max m c := by
  split
  · exact (max_eq_left (le_of_lt (by assumption))).symm
  · exact (max_eq_right (le_of_not_lt (by assumption))).symm

theorem clampSpan (a b : ℚ) (c : Bool) :
    ((if b - a < 4 then (if c then (b - 4, b) else (a, a + 4)) else (a, b)).2 -
     (if b - a < 4 then (if c then (b - 4, b) else (a, a + 4)) else (a, b)).1) =
      max 4 (b - a) := by
  by_cases h : b - a < 4
  · rw [if_pos h, max_eq_left (le_of_lt h)]
    cases c
    · simp
    · simp
  · rw [if_neg h, max_eq_right (le_of_not_lt h)]

theorem rightH_eq_false_of_leftH (hi : Nat) (h : leftH hi = true) :
    rightH hi = false := by
  unfold leftH at h
  simp only [Bool.or_eq_true, beq_iff_eq] at h
  rcases h with (rfl | rfl) | rfl <;> rfl

theorem bottomH_eq_false_of_topH (hi : Nat) (h : topH hi = true) :
    bottomH hi = false := by
  unfold topH at h
  simp only [Bool.or_eq_true, beq_iff_eq] at h
  rcases h with (rfl | rfl) | rfl <;> rfl

theorem shapeSpan_span (mn mx d : ℚ) (ls hs : Bool) :
    (shapeSpan mn mx d ls hs).2 - (shapeSpan mn mx d ls hs).1 =
      max 4 ((if hs = true then mx + d else mx) -
        (if ls = true then mn + d else mn)) := by
  unfold shapeSpan
  exact clampSpan _ _ ls

theorem shape_clamp_w (mn mx mny hh d dy' : ℚ) (hi : Nat) (P : Prop)
    [Decidable P] :
    |(if P then (shapeSpan mn mx d (leftH hi) (rightH hi)).1
      else (shapeSpan mn mx d (leftH hi) (rightH hi)).1 +
        ((shapeSpan mn mx d (leftH hi) (rightH hi)).2 -
         (shapeSpan mn mx d (leftH hi) (rightH hi)).1)) -
     (if P then (shapeSpan mn mx d (leftH hi) (rightH hi)).1 +
        ((shapeSpan mn mx d (leftH hi) (rightH hi)).2 -
         (shapeSpan mn mx d (leftH hi) (rightH hi)).1)
      else (shapeSpan mn mx d (leftH hi) (rightH hi)).1)| =
    max 4 (resizeCand ⟨mn, mny, mx - mn, hh⟩ hi d dy').w := by
  set A := (shapeSpan mn mx d (leftH hi) (rightH hi)).1 with hA
  set W := (shapeSpan mn mx d (leftH hi) (rightH hi)).2 -
    (shapeSpan mn mx d (leftH hi) (rightH hi)).1 with hW
  have habs : |(if P then A else A + W) - (if P then A + W else A)| = |W| := by
    by_cases hp : P
    · rw [if_pos hp, if_pos hp, abs_sub_comm, add_sub_cancel_left]
    · rw [if_neg hp, if_neg hp, add_sub_cancel_left]
  rw [habs]
  have hspan := shapeSpan_span mn mx d (leftH hi) (rightH hi)
  rw [← hW] at hspan
  have hWnn : (0 : ℚ) ≤ W := by
    rw [hspan]
    exact le_trans (by norm_num) (le_max_left _ _)
  rw [abs_of_nonneg hWnn, hspan]
  congr 1
  unfold resizeCand
  cases hl : leftH hi
  · cases hr : rightH hi
    · simp
    · simp only [Bool.false_eq_true, if_false, if_true]
      ring
  · rw [rightH_eq_false_of_leftH hi hl]
    simp only [Bool.false_eq_true, if_false, if_true]
    ring

theorem shape_clamp_h (mn mx mnx ww d dx' : ℚ) (hi : Nat) (P : Prop)
    [Decidable P] :
    |(if P then (shapeSpan mn mx d (topH hi) (bottomH hi)).1
      else (shapeSpan mn mx d (topH hi) (bottomH hi)).1 +
        ((shapeSpan mn mx d (topH hi) (bottomH hi)).2 -
         (shapeSpan mn mx d (topH hi) (bottomH hi)).1)) -
     (if P then (shapeSpan mn mx d (topH hi) (bottomH hi)).1 +
        ((shapeSpan mn mx d (topH hi) (bottomH hi)).2 -
         (shapeSpan mn mx d (topH hi) (bottomH hi)).1)
      else (shapeSpan mn mx d (topH hi) (bottomH hi)).1)| =
    max 4 (resizeCand ⟨mnx, mn, ww, mx - mn⟩ hi dx' d).h := by
  set A := (shapeSpan mn mx d (topH hi) (bottomH hi)).1 with hA
  set W := (shapeSpan mn mx d (topH hi) (bottomH hi)).2 -
    (shapeSpan mn mx d (topH hi) (bottomH hi)).1 with hW
  have habs : |(if P then A else A + W) - (if P then A + W else A)| = |W| := by
    by_cases hp : P
    · rw [if_pos hp, if_pos hp, abs_sub_comm, add_sub_cancel_left]
    · rw [if_neg hp, if_neg hp, add_sub_cancel_left]
  rw [habs]
  have hspan := shapeSpan_span mn mx d (topH hi) (bottomH hi)
  rw [← hW] at hspan
  have hWnn : (0 : ℚ) ≤ W := by
    rw [hspan]
    exact le_trans (by norm_num) (le_max_left _ _)
  rw [abs_of_nonneg hWnn, hspan]
  congr 1
  unfold resizeCand
  cases hl : topH hi
  · cases hr : bottomH hi
    · simp
    · simp only [Bool.false_eq_true, if_false, if_true]
      ring
  · rw [bottomH_eq_false_of_topH hi hl]
    simp only [Bool.false_eq_true, if_false, if_true]
    ring

/-- A group holding one 20×10 rectangle. -/
def c5group : Obj :=
  .group 10 [.shape 1 "rect" 0 0 20 10 "#000000" 2 1 false 0 3 0 false] 0 false

/-- **C5 counterexample** — dragging the middle-right handle of a `group`
object far past its left edge collapses it: `_applyResize` clamps the group's
box to width 4 (the same floor as vector shapes and strokes), not to the 10
the claim assigns to groups. -/
theorem group_resize_floor_counterexample :
    applyResize E0 c5group 4 ⟨20, 5⟩ ⟨-100, 5⟩ false =
      .group 10 [.shape 1 "rect" 0 0 4 10 "#000000" 2 1 false 0 3 0 false]
        0 false ∧
    boundsFromObj E0
      (.group 10 [.shape 1 "rect" 0 0 4 10 "#000000" 2 1 false 0 3 0 false]
        0 false) = some ⟨0, 0, 4, 10⟩ ∧
    (4 : ℚ) ≠ 10 := by
  have hb : boundsFromObj E0 c5group = some ⟨0, 0, 20, 10⟩ := by
    simp only [c5group, boundsFromObj, childBoxes, List.foldl_nil]
    norm_num
  refine ⟨?_, ?_, by norm_num⟩
  · unfold applyResize
    rw [hb]
    unfold c5group
    dsimp only
    rw [show Obj.rotation (.group 10
      [.shape 1 "rect" 0 0 20 10 "#000000" 2 1 false 0 3 0 false] 0 false) =
        (0 : ℚ) from rfl]
    unfold rotatePoint
    rw [if_pos (by norm_num), if_pos (by norm_num)]
    dsimp only
    have hn : resizeTargetBox4 ⟨0, 0, 20, 10⟩ 4 (-100 - 20) (5 - 5) false =
        ⟨0, 0, 4, 10⟩ := by
      unfold resizeTargetBox4 resizeCand shiftConstrain leftH rightH topH
        bottomH cornerH
      norm_num
    rw [hn]
    simp only [List.map_cons, List.map_nil, scaleObjCoords]
    norm_num
  · simp only [boundsFromObj, childBoxes, List.foldl_nil]
    norm_num

/-- **C5 (amended)** — resize minimum clamp, no shift modifier: a resize
gesture that would collapse or invert a dimension clamps it to exactly the
branch's floor — 4 units for parametric shapes, strokes, *and* `group`
objects resized via their own handles (`resizeTargetBox4`), 10 for `image`
objects (`resizeTargetBox10`) and for the multi-select group-resize box
(`groupResizeBox`) — never 0 or negative.  Each resulting span equals
`max floor candidate`, the candidate being the un-clamped dragged span. -/
theorem resize_min_clamp :
    (∀ (b : Box) (hi : Nat) (dx dy : ℚ),
      (resizeTargetBox4 b hi dx dy false).w = max 4 (resizeCand b hi dx dy).w ∧
      (resizeTargetBox4 b hi dx dy false).h = max 4 (resizeCand b hi dx dy).h) ∧
    (∀ (b : Box) (hi : Nat) (dx dy : ℚ),
      (resizeTargetBox10 b hi dx dy false).w = max 10 (resizeCand b hi dx dy).w ∧
      (resizeTargetBox10 b hi dx dy false).h = max 10 (resizeCand b hi dx dy).h) ∧
    (∀ (gb : Box) (hi : Nat) (dx dy : ℚ),
      (groupResizeBox gb hi dx dy false).w = max 10 (resizeCand gb hi dx dy).w ∧
      (groupResizeBox gb hi dx dy false).h = max 10 (resizeCand gb hi dx dy).h) ∧
    (∀ (E : Env) (i : Nat) (k : String) (x1 y1 x2 y2 : ℚ) (c : String)
      (sz op : ℚ) (f : Bool) (cr : ℚ) (sd : Nat) (r : ℚ) (lk : Bool)
      (hi : Nat) (start mouse : Pt),
      ∃ nx1 ny1 nx2 ny2 : ℚ,
        applyResize E (.shape i k x1 y1 x2 y2 c sz op f cr sd r lk) hi
            start mouse false =
          .shape i k nx1 ny1 nx2 ny2 c sz op f cr sd r lk ∧
        |nx2 - nx1| =
          max 4 (resizeCand ⟨min x1 x2, min y1 y2, max x1 x2 - min x1 x2,
            max y1 y2 - min y1 y2⟩ hi
            ((rotatePoint E (min x1 x2 + (max x1 x2 - min x1 x2) / 2)
                (min y1 y2 + (max y1 y2 - min y1 y2) / 2) mouse.x mouse.y
                (-r)).x -
             (rotatePoint E (min x1 x2 + (max x1 x2 - min x1 x2) / 2)
                (min y1 y2 + (max y1 y2 - min y1 y2) / 2) start.x start.y
                (-r)).x)
            ((rotatePoint E (min x1 x2 + (max x1 x2 - min x1 x2) / 2)
                (min y1 y2 + (max y1 y2 - min y1 y2) / 2) mouse.x mouse.y
                (-r)).y -
             (rotatePoint E (min x1 x2 + (max x1 x2 - min x1 x2) / 2)
                (min y1 y2 + (max y1 y2 - min y1 y2) / 2) start.x start.y
                (-r)).y)).w ∧
        |ny2 - ny1| =
          max 4 (resizeCand ⟨min x1 x2, min y1 y2, max x1 x2 - min x1 x2,
            max y1 y2 - min y1 y2⟩ hi
            ((rotatePoint E (min x1 x2 + (max x1 x2 - min x1 x2) / 2)
                (min y1 y2 + (max y1 y2 - min y1 y2) / 2) mouse.x mouse.y
                (-r)).x -
             (rotatePoint E (min x1 x2 + (max x1 x2 - min x1 x2) / 2)
                (min y1 y2 + (max y1 y2 - min y1 y2) / 2) start.x start.y
                (-r)).x)
            ((rotatePoint E (min x1 x2 + (max x1 x2 - min x1 x2) / 2)
                (min y1 y2 + (max y1 y2 - min y1 y2) / 2) mouse.x mouse.y
                (-r)).y -
             (rotatePoint E (min x1 x2 + (max x1 x2 - min x1 x2) / 2)
                (min y1 y2 + (max y1 y2 - min y1 y2) / 2) start.x start.y
                (-r)).y)).h) := by
  refine ⟨?_, ?_, ?_, ?_⟩
  · intro b hi dx dy
    unfold resizeTargetBox4
    rw [shiftConstrain_false]
    exact ⟨ite_lt_eq_max 4 _, ite_lt_eq_max 4 _⟩
  · intro b hi dx dy
    unfold resizeTargetBox10
    rw [shiftConstrain_false]
    exact ⟨ite_lt_eq_max 10 _, ite_lt_eq_max 10 _⟩
  · intro gb hi dx dy
    unfold groupResizeBox
    simp only [Bool.false_and, if_neg (by exact Bool.false_ne_true)]
    exact ⟨ite_lt_eq_max 10 _, ite_lt_eq_max 10 _⟩
  · intro E i k x1 y1 x2 y2 c sz op f cr sd r lk hi start mouse
    unfold applyResize
    rw [show boundsFromObj E (.shape i k x1 y1 x2 y2 c sz op f cr sd r lk) =
      some ⟨min x1 x2, min y1 y2, max x1 x2 - min x1 x2,
        max y1 y2 - min y1 y2⟩ from rfl]
    dsimp only
    rw [shiftConstrain_false]
    refine ⟨_, _, _, _, rfl, ?_, ?_⟩
    · exact shape_clamp_w _ _ _ _ _ _ hi _
    · exact shape_clamp_h _ _ _ _ _ _ hi _

/-! ## Locked-object handling (C8) -/

/-- `obj.color` where the type carries one. -/
def Obj.color? : Obj → Option String
  | .stroke _ _ c _ _ _ _ _ => some c
  | .shape _ _ _ _ _ _ c _ _ _ _ _ _ _ => some c
  | .text _ _ _ _ _ c _ _ _ => some c
  | .image _ _ _ _ _ _ _ _ _ => none
  | .group _ _ _ _ => none

/-- An unlocked green rectangle (id 1). -/
def c8unlocked : Obj := .shape 1 "rect" 20 20 30 30 "#00ff00" 2 1 false 0 3 0 false

/-- A locked blue rectangle (id 2). -/
def c8locked : Obj := .shape 2 "rect" 0 0 5 5 "#0000ff" 2 1 false 0 3 0 true

/-- A state with both rectangles selected (a mixed locked/unlocked
selection). -/
def c8state : State :=
  { objects := [c8unlocked, c8locked], history := [[]], historyPtr := 0,
    nextId := 3, selectedIds := [1, 2] }

/-- The single-selection rotation/resize arming check of `_handleSelectDown`
(rich variant): with exactly one selected id, a rotation or resize gesture may
begin only when the id resolves to an unlocked object
(`if (obj && !obj.locked) { ... rotation handle ... resize handles ... }`). -/
def singleHandleGate (s : State) : Bool :=
  match s.selectedIds with
  | [i] =>
    match getObjectById s.objects i with
    | some o => !o.locked
    | none => false
  | _ => false

/-- The `groupResizeBases` capture of the multi-select resize arm of
`_handleSelectDown`: a clone of EVERY resolved selected object — there is no
`locked` filter (`if (obj) this.groupResizeBases.set(id, clone)`). -/
def groupResizeBasesOf (s : State) : List (Nat × Obj) :=
  s.selectedIds.filterMap fun i =>
    match getObjectById s.objects i with
    | some o => some (i, o)
    | none => none

/-- A `groupRotateBases` entry: the base clone and its local-bounds centre. -/
structure RotBase where
  obj : Obj
  cx : ℚ
  cy : ℚ

/-- The `groupRotateBases` capture of the multi-select rotate arm of
`_handleSelectDown`: every resolved selected object, locked or not, with the
centre of its `_getAxisAlignedBoundsFromObj` box (`0` when boundless). -/
def groupRotateBasesOf (E : Env) (s : State) : List (Nat × RotBase) :=
  s.selectedIds.filterMap fun i =>
    match getObjectById s.objects i with
    | some o =>
      match boundsFromObj E o with
      | some ab => some (i, ⟨o, ab.x + ab.w / 2, ab.y + ab.h / 2⟩)
      | none => some (i, ⟨o, 0, 0⟩)
    | none => none

/-- `_applyGroupRotate(x, y)` as a function of the group centre and the net
angle `delta` (`atan2(y-cy, x-cx) - groupRotateBase0`): every object with a
captured base is moved so its saved centre rotates about the group centre,
and `delta` is added to its base rotation. -/
def applyGroupRotate (E : Env) (cx cy delta : ℚ) (bases : List (Nat × RotBase))
    (objects : List Obj) : List Obj :=
  objects.map fun o =>
    match bases.lookup o.id with
    | some info =>
      let np := rotatePoint E cx cy info.cx info.cy delta
      (moveFromBase (np.x - info.cx) (np.y - info.cy) info.obj).setRotation
        (info.obj.rotation + delta)
    | none => o

/-- `obj.x1` where the type carries one. -/
def Obj.x1? : Obj → Option ℚ
  | .shape _ _ x1 _ _ _ _ _ _ _ _ _ _ _ => some x1
  | _ => none

theorem Obj.rotation_setRotation (o : Obj) (r : ℚ) :
    (o.setRotation r).rotation = r := by
  cases o <;> rfl

theorem Obj.rotation_moveFromBase (dx dy : ℚ) (o : Obj) :
    (moveFromBase dx dy o).rotation = o.rotation := by
  cases o <;> rfl

/-- **C8 counterexample** — three operations DO mutate locked objects on a
mixed selection.  (1) A property edit recolors the locked rectangle too:
`setColor` only guards an *all-locked* selection and `_applyPropToSelected`
never checks `locked`.  (2) A multi-select group resize (right handle dragged
42 units, doubling the 42-wide drag-start box) rescales the locked rectangle:
`groupResizeBases` captures every selected object without a `locked` filter,
moving the locked rectangle's `x1` from 0 to 6.  (3) A multi-select group
rotate by `delta = 3` sets the locked rectangle's rotation from 0 to 3:
`groupRotateBases` likewise has no `locked` filter. -/
theorem locked_property_edit_counterexample :
    (c8locked.locked = true ∧
      c8locked.color? = some "#0000ff" ∧
      (setColor "#ff0000" c8state).objects.map Obj.color? =
        [some "#ff0000", some "#ff0000"]) ∧
    ((applyGroupResize ⟨-6, -6, 42, 42⟩ 4 ⟨36, 15⟩ ⟨78, 15⟩ false
        (groupResizeBasesOf c8state) c8state.objects).map Obj.x1? =
      [some 46, some 6] ∧
      c8state.objects.map Obj.x1? = [some 20, some 0]) ∧
    ((applyGroupRotate E0 0 0 3 (groupRotateBasesOf E0 c8state)
        c8state.objects).map Obj.rotation = [3, 3] ∧
      c8state.objects.map Obj.rotation = [0, 0]) := by
  refine ⟨by decide, ⟨?_, ?_⟩, ⟨?_, ?_⟩⟩
  · norm_num [applyGroupResize, groupResizeBox, resizeCand, leftH, rightH,
      topH, bottomH, cornerH, shiftConstrain, groupResizeBasesOf, c8state,
      c8unlocked, c8locked, getObjectById, scaleObjCoords, copyObjCoords,
      List.find?, List.filterMap, List.lookup, Obj.x1?, Obj.id,
      (show ((1 : Nat) == 1) = true from rfl),
      (show ((2 : Nat) == 1) = false from rfl),
      (show ((2 : Nat) == 2) = true from rfl)]
  · norm_num [c8state, c8unlocked, c8locked, Obj.x1?]
  · norm_num [applyGroupRotate, groupRotateBasesOf, boundsFromObj, c8state,
      c8unlocked, c8locked, getObjectById, List.find?, List.filterMap,
      List.lookup, moveFromBase, Obj.setRotation, Obj.rotation, Obj.id,
      (show ((1 : Nat) == 1) = true from rfl),
      (show ((2 : Nat) == 1) = false from rfl),
      (show ((2 : Nat) == 2) = true from rfl)]
  · norm_num [c8state, c8unlocked, c8locked, Obj.rotation]

theorem getObjectById_of_mem (l : List Obj) (o : Obj)
    (hpw : l.Pairwise (fun a b => a.id ≠ b.id)) (ho : o ∈ l) :
    getObjectById l o.id = some o := by
  induction l with
  | nil => simp at ho
  | cons a rest ih =>
    rcases List.mem_cons.mp ho with rfl | ho'
    · unfold getObjectById
      simp [List.find?]
    · unfold getObjectById
      rw [List.find?_cons]
      have hne : a.id ≠ o.id := (List.pairwise_cons.mp hpw).1 o ho'
      have hb : (a.id == o.id) = false := by simpa using hne
      rw [hb]
      exact ih (List.pairwise_cons.mp hpw).2 ho'

/-- **C8 (amended)** — locked-object exclusions: (1) `_deleteSelected` keeps
every locked object, unchanged, in the list (so it is still painted by the
render loop); (2) a pointer-down that hits a locked object still selects it
but starts no drag and captures no drag bases; (3) a drag move leaves every
locked object present and unchanged; (4) a property edit on an all-locked
selection is a no-op; (5) BUT on a mixed selection the edit is applied to
every selected object, locked ones included — locked objects are NOT
excluded from property edits there (see the counterexample, which also shows
the multi-select group resize and group rotate mutating locked objects);
(6) the single-selection resize and rotate exclusions DO hold: with one
selected id resolving to a locked object the arming gate is closed, so
neither gesture can begin. -/
theorem locked_exclusions :
    (∀ (s : State) (o : Obj), o ∈ s.objects → o.locked = true →
      o ∈ (deleteSelected s).objects) ∧
    (∀ (E : Env) (s : State) (x y : ℚ) (hit : Obj),
      findObjectAt E s.objects x y = some hit → hit.locked = true →
      handleSelectDownHit E s x y =
        some ⟨if s.selectedIds.contains hit.id then s.selectedIds
              else [hit.id], [], false⟩) ∧
    (∀ (E : Env) (s : State) (x y : ℚ) (d : DownHit),
      handleSelectDownHit E s x y = some d →
      s.objects.Pairwise (fun a b => a.id ≠ b.id) →
      ∀ (dx dy : ℚ) (o : Obj), o ∈ s.objects → o.locked = true →
        o ∈ dragMove d.selectedIds d.dragBases dx dy s.objects ∧
        (dragMove d.selectedIds d.dragBases dx dy s.objects).length =
          s.objects.length) ∧
    (∀ (s : State) (c : String),
      (∀ i ∈ s.selectedIds, ∃ o, getObjectById s.objects i = some o ∧
        o.locked = true) →
      setColor c s = s) ∧
    (∀ (s : State) (c : String), s.selectedIds ≠ [] →
      (∃ i ∈ s.selectedIds, ∀ o, getObjectById s.objects i = some o →
        o.locked = false) →
      (setColor c s).objects = s.objects.map fun o =>
        if s.selectedIds.contains o.id then applyPropToObj "color" (.str c) o
        else o) ∧
    (∀ (s : State) (i : Nat) (o : Obj), s.selectedIds = [i] →
      getObjectById s.objects i = some o → o.locked = true →
      singleHandleGate s = false) := by
  refine ⟨?_, ?_, ?_, ?_, ?_, ?_⟩
  · intro s o ho hlk
    unfold deleteSelected
    split
    · exact ho
    · rw [saveSnap_objects]
      refine List.mem_filter.mpr ⟨ho, ?_⟩
      rw [hlk]
      simp
  · intro E s x y hit hfind hlk
    unfold handleSelectDownHit
    rw [hfind]
    dsimp only
    rw [hlk]
    rfl
  · intro E s x y d hd hpw dx dy o ho hlk
    have hlookup : d.dragBases.lookup o.id = none := by
      unfold handleSelectDownHit at hd
      rcases hfind : findObjectAt E s.objects x y with _ | hit
      · rw [hfind] at hd
        exact absurd hd (by simp)
      · rw [hfind] at hd
        dsimp only at hd
        by_cases hhl : hit.locked = true
        · rw [if_pos hhl] at hd
          cases hd
          rfl
        · rw [if_neg hhl] at hd
          cases hd
          rw [List.lookup_eq_none_iff]
          intro p hp
          obtain ⟨i, hi, hsome⟩ := List.mem_filterMap.mp hp
          rcases hgo : getObjectById s.objects i with _ | o'
          · rw [hgo] at hsome
            simp at hsome
          · rw [hgo] at hsome
            dsimp only at hsome
            by_cases hol : o'.locked = true
            · rw [if_pos hol] at hsome
              simp at hsome
            · rw [if_neg hol] at hsome
              cases hsome
              simp only [bne_iff_ne, ne_eq]
              intro hoi
              rw [← hoi] at hgo
              rw [getObjectById_of_mem s.objects o hpw ho] at hgo
              cases hgo
              rw [hlk] at hol
              exact hol rfl
    constructor
    · unfold dragMove
      refine List.mem_map.mpr ⟨o, ho, ?_⟩
      by_cases hc : d.selectedIds.contains o.id
      · rw [if_pos hc, hlookup]
      · rw [if_neg hc]
    · unfold dragMove
      rw [List.length_map]
  · intro s c hall
    unfold setColor
    split
    · rfl
    · rw [if_pos ?_]
      rw [List.all_eq_true]
      intro i hi
      obtain ⟨o, hgo, hol⟩ := hall i hi
      rw [hgo]
      exact hol
  · intro s c hne hex
    unfold setColor
    rw [if_neg hne, if_neg ?_, saveSnap_objects]
    · unfold applyPropToSelected
      rw [if_neg hne]
    · obtain ⟨i, hi, hunl⟩ := hex
      rw [List.all_eq_true]
      intro hall
      have := hall i hi
      rcases hgo : getObjectById s.objects i with _ | o
      · rw [hgo] at this
        simp at this
      · rw [hgo] at this
        have hl := hunl o hgo
        have hlt : o.locked = true := this
        rw [hl] at hlt
        simp at hlt
  · intro s i o hsel hgo hlk
    unfold singleHandleGate
    rw [hsel]
    dsimp only
    rw [hgo]
    dsimp only
    rw [hlk]
    rfl

/-- A state whose whole (non-empty) selection is the locked rectangle. -/
def c8allLocked : State :=
  { objects := [c8locked], history := [[]], historyPtr := 0,
    nextId := 3, selectedIds := [2] }

theorem c8find : findObjectAt E0 c8state.objects 2 2 = some c8locked := by
  have h1 : hitTest E0 c8locked 2 2 0 = true := by
    simp only [c8locked, hitTest, localPoint, boundsFromObj, sizeOrDefault,
      hitRectOutline, E0, Obj.rotation]
    norm_num
  show List.find? _ c8state.objects.reverse = _
  rw [show c8state.objects.reverse = [c8locked, c8unlocked] from rfl,
    List.find?_cons, h1]

theorem locked_exclusions_witness :
    c8locked ∈ (deleteSelected c8state).objects ∧
    handleSelectDownHit E0 c8state 2 2 = some ⟨[1, 2], [], false⟩ ∧
    (c8locked ∈ dragMove [1, 2] [] 7 9 c8state.objects ∧
      (dragMove [1, 2] [] 7 9 c8state.objects).length =
        c8state.objects.length) ∧
    setColor "#ff0000" c8allLocked = c8allLocked ∧
    ((setColor "#ff0000" c8state).objects = c8state.objects.map fun o =>
      if c8state.selectedIds.contains o.id then
        applyPropToObj "color" (.str "#ff0000") o
      else o) ∧
    singleHandleGate c8allLocked = false := by
  have hmem : c8locked ∈ c8state.objects :=
    List.mem_cons_of_mem _ (List.mem_cons_self _ _)
  obtain ⟨e1, e2, e3, e4, e5, e6⟩ := locked_exclusions
  have h2 : handleSelectDownHit E0 c8state 2 2 = some ⟨[1, 2], [], false⟩ := by
    rw [e2 E0 c8state 2 2 c8locked c8find rfl]
    rfl
  refine ⟨e1 c8state c8locked hmem rfl, h2, ?_, ?_, ?_,
    e6 c8allLocked 2 c8locked rfl rfl rfl⟩
  · exact e3 E0 c8state 2 2 ⟨[1, 2], [], false⟩ h2 (by decide) 7 9 c8locked
      hmem rfl
  · refine e4 c8allLocked "#ff0000" ?_
    intro i hi
    have hi2 : i = 2 := by simpa [c8allLocked] using hi
    subst hi2
    exact ⟨c8locked, rfl, rfl⟩
  · refine e5 c8state "#ff0000" (by simp [c8state]) ⟨1, by simp [c8state], ?_⟩
    intro o h
    have h2 : (some c8unlocked : Option Obj) = some o := by
      rw [← h]
      rfl
    injection h2 with h3
    rw [← h3]
    rfl

/-! ## Group / ungroup (C6) -/

/-- Bottom object (id 1), selected. -/
def c6A : Obj := .shape 1 "rect" 0 0 10 10 "#000000" 2 1 false 0 4 0 false

/-- Middle object (id 2), NOT selected. -/
def c6C : Obj := .shape 2 "rect" 20 0 30 10 "#000000" 2 1 false 0 4 0 false

/-- Top object (id 3), selected. -/
def c6B : Obj := .shape 3 "rect" 40 0 50 10 "#000000" 2 1 false 0 4 0 false

/-- Three objects with the bottom and top ones selected: the topmost selected
member sits at index 2. -/
def c6tri : State :=
  { objects := [c6A, c6C, c6B], history := [[]], historyPtr := 0,
    nextId := 4, selectedIds := [1, 3] }

/-- Objects ordered bottom `id 1` (selected), `id 2` (selected), top `id 3`
(not selected): every selected member sits strictly below the unselected
object. -/
def c6tri2 : State :=
  { objects := [c6A.withId 1, c6C.withId 2, c6B.withId 3],
    history := [[]], historyPtr := 0, nextId := 4, selectedIds := [1, 2] }

/-- **C6 counterexample** — the new group is NOT inserted at the topmost
member's z-position: the code inserts at `min(topIdx, remaining.length)`
counted in the post-removal list.  Scenario 1: the topmost selected member
(id 3) sits at index 2, but the group (id 4) lands at index 1.  Scenario 2:
the unselected object (id 3) was strictly ABOVE every selected member, yet
after grouping it ends up BELOW the group (result order `[3, 4]`), so the
group does not take the topmost member's z-position under a relative reading
either. -/
theorem group_insert_position_counterexample :
    ((c6tri.objects.findIdx fun o => o.id == 3) = 2 ∧
      (groupSelected c6tri).objects.map Obj.id = [2, 4] ∧
      ((groupSelected c6tri).objects.findIdx fun o => o.id == 4) = 1) ∧
    ((c6tri2.objects.findIdx fun o => o.id == 2) = 1 ∧
      (c6tri2.objects.findIdx fun o => o.id == 3) = 2 ∧
      (groupSelected c6tri2).objects.map Obj.id = [3, 4]) := by decide

theorem find?_append_cons_of_not (p : Obj → Bool) (l1 l2 : List Obj) (x : Obj)
    (h1 : ∀ o ∈ l1, p o = false) (hx : p x = true) :
    (l1 ++ x :: l2).find? p = some x := by
  induction l1 with
  | nil =>
    rw [List.nil_append, List.find?_cons, hx]
  | cons a t ih =>
    rw [List.cons_append, List.find?_cons, h1 a (List.mem_cons_self a t)]
    exact ih fun o ho => h1 o (List.mem_cons_of_mem a ho)

theorem findIdx_append_cons_of_not (p : Obj → Bool) (l1 l2 : List Obj)
    (x : Obj) (h1 : ∀ o ∈ l1, p o = false) (hx : p x = true) :
    (l1 ++ x :: l2).findIdx p = l1.length := by
  induction l1 with
  | nil =>
    rw [List.nil_append, List.findIdx_cons, hx]
    rfl
  | cons a t ih =>
    rw [List.cons_append, List.findIdx_cons, h1 a (List.mem_cons_self a t)]
    show (t ++ x :: l2).findIdx p + 1 = t.length + 1
    rw [ih fun o ho => h1 o (List.mem_cons_of_mem a ho)]

theorem drop_splice (l1 l2 : List Obj) (x : Obj) :
    (l1 ++ x :: l2).drop (l1.length + 1) = l2 := by
  induction l1 with
  | nil => rfl
  | cons a t ih => simp [ih]

/-- `id` is the only field `withId` touches, so the axis-aligned bounds are
unchanged. -/
theorem getAxisAlignedBounds_withId (E : Env) (o : Obj) (n : Nat) :
    getAxisAlignedBounds E (o.withId n) = getAxisAlignedBounds E o := by
  cases o <;> rfl

theorem Obj.id_withId (o : Obj) (n : Nat) : (o.withId n).id = n := by
  cases o <;> rfl

theorem mapIdx_withId_map_id (l : List Obj) :
    ∀ n, (l.mapIdx fun j c => c.withId (n + j)).map Obj.id =
      List.range' n l.length := by
  induction l with
  | nil => intro n; rfl
  | cons a t ih =>
    intro n
    simp only [List.mapIdx_cons, List.map_cons, Obj.id_withId, Nat.add_zero]
    have h2 : (fun j (c : Obj) => c.withId (n + (j + 1))) =
        fun j c => c.withId ((n + 1) + j) := by
      funext j c
      rw [show n + (j + 1) = (n + 1) + j by omega]
    rw [h2, ih (n + 1), List.length_cons, List.range'_succ]

theorem mapIdx_withId_map_bounds (E : Env) (l : List Obj) :
    ∀ n, (l.mapIdx fun j c => c.withId (n + j)).map (getAxisAlignedBounds E) =
      l.map (getAxisAlignedBounds E) := by
  induction l with
  | nil => intro n; rfl
  | cons a t ih =>
    intro n
    simp only [List.mapIdx_cons, List.map_cons, getAxisAlignedBounds_withId]
    have h2 : (fun j (c : Obj) => c.withId (n + (j + 1))) =
        fun j c => c.withId ((n + 1) + j) := by
      funext j c
      rw [show n + (j + 1) = (n + 1) + j by omega]
    rw [h2, ih (n + 1)]

/-- **C6 (amended)** — grouping ≥ 2 resolvable selected objects removes the
originals and splices a fresh-id group holding the member clones (in
selection order) at index `min(topIdx, remaining.length)` of the
POST-REMOVAL list — not literally at the topmost member's original
z-position; immediately ungrouping re-splices the children over the group's
list position with fresh sequential ids (never previously used), leaving
every rotation untouched (the group's rotation is 0, so no baking occurs)
and every rendered axis-aligned bounding box identical to the original
member's. -/
theorem group_ungroup_roundtrip (E : Env) (s : State)
    (members rest : List Obj) (k : Nat)
    (hmem : members = s.selectedIds.filterMap fun i => getObjectById s.objects i)
    (hrest : rest = s.objects.filter fun o => !(s.selectedIds.contains o.id))
    (hk : k = (min
      (((members.map fun m =>
        ((s.objects.findIdx fun o => o.id == m.id : Nat) : Int)).max?).getD (-1))
      (rest.length : Int)).toNat)
    (hsel : 2 ≤ s.selectedIds.length)
    (hbound : ∀ o ∈ s.objects, o.id < s.nextId) :
    (groupSelected s).objects =
      rest.take k ++ Obj.group s.nextId members 0 false :: rest.drop k ∧
    (ungroupSelected (groupSelected s)).objects.map (getAxisAlignedBounds E) =
      (rest.take k ++ members ++ rest.drop k).map (getAxisAlignedBounds E) ∧
    (ungroupSelected (groupSelected s)).objects.map Obj.id =
      (rest.take k).map Obj.id ++ List.range' (s.nextId + 1) members.length ++
        (rest.drop k).map Obj.id ∧
    ∀ o ∈ s.objects, ¬ o.id ∈ List.range' (s.nextId + 1) members.length := by
  have hnlt : ¬ s.selectedIds.length < 2 := Nat.not_lt.mpr hsel
  have hL : (groupSelected s).objects =
      rest.take k ++ Obj.group s.nextId members 0 false :: rest.drop k := by
    unfold groupSelected
    rw [if_neg hnlt, saveSnap_objects]
    dsimp only
    rw [← hmem, ← hrest, ← hk]
    rfl
  have hSel : (groupSelected s).selectedIds = [s.nextId] := by
    unfold groupSelected
    rw [if_neg hnlt, saveSnap_selectedIds]
  have hNext : (groupSelected s).nextId = s.nextId + 1 := by
    unfold groupSelected
    rw [if_neg hnlt, saveSnap_nextId]
  have hRid : ∀ o ∈ rest, (o.id == s.nextId) = false := by
    intro o ho
    have hmo : o ∈ s.objects := by
      rw [hrest] at ho
      exact List.mem_of_mem_filter ho
    have := hbound o hmo
    simpa using Nat.ne_of_lt this
  have hgid : ((Obj.group s.nextId members 0 false).id == s.nextId) = true := by
    simp [Obj.id]
  have hfind : getObjectById (groupSelected s).objects s.nextId =
      some (Obj.group s.nextId members 0 false) := by
    rw [hL]
    unfold getObjectById
    exact find?_append_cons_of_not _ _ _ _
      (fun o ho => hRid o (List.mem_of_mem_take ho)) hgid
  have hidx : ((rest.take k ++ Obj.group s.nextId members 0 false ::
      rest.drop k).findIdx fun o => o.id == s.nextId) = (rest.take k).length :=
    findIdx_append_cons_of_not _ _ _ _
      (fun o ho => hRid o (List.mem_of_mem_take ho)) hgid
  have hU : (ungroupSelected (groupSelected s)).objects =
      rest.take k ++
        (members.mapIdx fun j c => c.withId ((s.nextId + 1) + j)) ++
        rest.drop k := by
    unfold ungroupSelected
    rw [hSel]
    dsimp only
    rw [hfind]
    dsimp only
    rw [saveSnap_objects]
    dsimp only
    rw [hL, hidx, drop_splice, List.take_left' rfl]
    simp only [hNext, eq_self_iff_true, if_true]
  refine ⟨hL, ?_, ?_, ?_⟩
  · rw [hU]
    simp only [List.map_append]
    rw [mapIdx_withId_map_bounds E members (s.nextId + 1)]
  · rw [hU]
    simp only [List.map_append]
    rw [mapIdx_withId_map_id members (s.nextId + 1)]
  · intro o ho hin
    have := hbound o ho
    have h2 := (List.mem_range'_1.mp hin).1
    omega

/-- Concrete instance of the amended C6 round-trip on `c6tri`: the group
lands at index 1 of the post-removal list, and ungrouping restores the three
original axis-aligned bounding boxes with fresh ids 5 and 6. -/
theorem group_ungroup_roundtrip_witness :
    (groupSelected c6tri).objects =
      [c6C, Obj.group 4 [c6A, c6B] 0 false] ∧
    (ungroupSelected (groupSelected c6tri)).objects.map
        (getAxisAlignedBounds E0) =
      ([c6C, c6A, c6B]).map (getAxisAlignedBounds E0) ∧
    (ungroupSelected (groupSelected c6tri)).objects.map Obj.id = [2, 5, 6] ∧
    ∀ o ∈ c6tri.objects, ¬ o.id ∈ List.range' 5 2 :=
  group_ungroup_roundtrip E0 c6tri [c6A, c6B] [c6C] 1 rfl rfl rfl
    (by decide) (by decide)

/-! ## Reachable-state id invariant (C9) -/

/-- One user-level operation of the app, each mapped to its embedded state
transformer: the three object-committing gestures, selection (click paths
over-approximated by an arbitrary id list, plus the marquee), a full drag
gesture, property edits, colour edits, delete, group, ungroup, undo, redo
and clear. -/
inductive Op where
  | freehand (cur : CurrentStroke) (x y : ℚ)
  | shapeG (cur : CurrentShape) (cornerRadius : ℚ) (sides : Nat)
      (shiftDown : Bool) (x y : ℚ)
  | textG (input : String) (x y fontSize : ℚ) (color : String) (opacity : ℚ)
  | select (ids : List Nat)
  | marquee (ms me : Pt)
  | drag (x y dx dy : ℚ)
  | editProp (prop : String) (v : PropVal)
  | colorSel (c : String)
  | deleteSel
  | groupSel
  | ungroupSel
  | undoOp
  | redoOp
  | clearAll

/-- `_handleSelectDown` hitting at `(x, y)`, a pointer move of `(dx, dy)`
applying `_moveFromBase` to the captured bases, and a pointer-up snapshot
when a drag actually started. -/
def dragGesture (E : Env) (x y dx dy : ℚ) (s : State) : State :=
  match handleSelectDownHit E s x y with
  | none => s
  | some d =>
    if d.isDragging then
      saveSnap { s with
        selectedIds := d.selectedIds,
        objects := dragMove d.selectedIds d.dragBases dx dy s.objects }
    else { s with selectedIds := d.selectedIds }

/-- Dispatch an operation to its embedded transformer. -/
def applyOp (E : Env) : Op → State → State
  | .freehand cur x y => commitFreehandStroke E cur x y
  | .shapeG cur cr sd sh x y => commitShape cur cr sd sh x y
  | .textG input x y fs c op => commitText input x y fs c op
  | .select ids => fun s => { s with selectedIds := ids }
  | .marquee ms me => marqueeGesture E ms me
  | .drag x y dx dy => dragGesture E x y dx dy
  | .editProp p v => fun s => saveSnap (applyPropToSelected p v s)
  | .colorSel c => setColor c
  | .deleteSel => deleteSelected
  | .groupSel => groupSelected
  | .ungroupSel => ungroupSelected
  | .undoOp => undo
  | .redoOp => redo
  | .clearAll => clearCanvas

/-- Top-level ids pairwise distinct and strictly below the id counter. -/
def idsOk (bound : Nat) (l : List Obj) : Prop :=
  l.Pairwise (fun a b => a.id ≠ b.id) ∧ ∀ o ∈ l, o.id < bound

/-- The id invariant: the live scene list and every history snapshot are
`idsOk` for the current `_nextId`. -/
structure StateInv (s : State) : Prop where
  objs : idsOk s.nextId s.objects
  hist : ∀ h ∈ s.history, idsOk s.nextId h

/-- Run a sequence of operations from the freshly initialised app. -/
def runOps (E : Env) (ops : List Op) : State :=
  ops.foldl (fun s op => applyOp E op s) initState

theorem idsOk_nil (n : Nat) : idsOk n [] := ⟨List.Pairwise.nil, by simp⟩

theorem idsOk_mono {m n : Nat} {l : List Obj} (h : m ≤ n) (hl : idsOk m l) :
    idsOk n l :=
  ⟨hl.1, fun o ho => lt_of_lt_of_le (hl.2 o ho) h⟩

theorem idsOk_sublist {n : Nat} {l l' : List Obj} (hs : l'.Sublist l)
    (h : idsOk n l) : idsOk n l' :=
  ⟨h.1.sublist hs, fun o ho => h.2 o (hs.subset ho)⟩

theorem idsOk_filter (n : Nat) (l : List Obj) (p : Obj → Bool)
    (h : idsOk n l) : idsOk n (l.filter p) :=
  idsOk_sublist (List.filter_sublist l) h

theorem idsOk_map_of_id (n : Nat) (l : List Obj) (f : Obj → Obj)
    (hf : ∀ o, (f o).id = o.id) (h : idsOk n l) : idsOk n (l.map f) := by
  obtain ⟨hp, hb⟩ := h
  refine ⟨List.pairwise_map.mpr (hp.imp fun hab => by rw [hf, hf]; exact hab), ?_⟩
  intro o ho
  obtain ⟨a, ha, rfl⟩ := List.mem_map.mp ho
  rw [hf]
  exact hb a ha

theorem idsOk_append_fresh (n : Nat) (l : List Obj) (x : Obj)
    (hx : x.id = n) (h : idsOk n l) : idsOk (n + 1) (l ++ [x]) := by
  obtain ⟨hp, hb⟩ := h
  refine ⟨List.pairwise_append.mpr ⟨hp, List.pairwise_singleton _ _, ?_⟩, ?_⟩
  · intro a ha b hb'
    have hbx : b = x := by simpa using hb'
    subst hbx
    rw [hx]
    exact Nat.ne_of_lt (hb a ha)
  · intro o ho
    rcases List.mem_append.mp ho with ho | ho
    · exact Nat.lt_succ_of_lt (hb o ho)
    · have hox : o = x := by simpa using ho
      subst hox
      rw [hx]
      exact Nat.lt_succ_self n

theorem idsOk_historyAt (n : Nat) (h : List (List Obj)) (i : Int)
    (hh : ∀ e ∈ h, idsOk n e) : idsOk n (historyAt h i) := by
  unfold historyAt
  rw [List.getD_eq_getElem?_getD]
  rcases hg : h[i.toNat]? with _ | e
  · exact idsOk_nil n
  · exact hh e (List.getElem?_mem hg)

theorem saveSnap_inv {s : State} (hs : StateInv s) : StateInv (saveSnap s) := by
  refine ⟨hs.objs, ?_⟩
  intro h hh
  have hh' : h ∈ if MAX_HISTORY <
      (s.history.take (s.historyPtr + 1).toNat ++ [cloneObjects s.objects]).length
      then (s.history.take (s.historyPtr + 1).toNat ++
        [cloneObjects s.objects]).tail
      else s.history.take (s.historyPtr + 1).toNat ++ [cloneObjects s.objects] :=
    hh
  have hh2 : h ∈ s.history.take (s.historyPtr + 1).toNat ++
      [cloneObjects s.objects] := by
    by_cases hc : MAX_HISTORY <
        (s.history.take (s.historyPtr + 1).toNat ++ [cloneObjects s.objects]).length
    · rw [if_pos hc] at hh'
      exact List.mem_of_mem_tail hh'
    · rw [if_neg hc] at hh'
      exact hh'
  rcases List.mem_append.mp hh2 with hmem | hmem
  · exact hs.hist h (List.mem_of_mem_take hmem)
  · have : h = cloneObjects s.objects := by simpa using hmem
    subst this
    exact hs.objs

theorem Obj.id_setRotation (o : Obj) (r : ℚ) : (o.setRotation r).id = o.id := by
  cases o <;> rfl

theorem applyPropToObj_id (p : String) (v : PropVal) (o : Obj) :
    (applyPropToObj p v o).id = o.id := by
  cases o <;> unfold applyPropToObj <;> try rfl
  all_goals split <;> (try split) <;> rfl

theorem moveFromBase_id (dx dy : ℚ) (o : Obj) :
    (moveFromBase dx dy o).id = o.id := by
  cases o <;> rfl

theorem lookup_mem_pair : ∀ (l : List (Nat × Obj)) (k : Nat) (b : Obj),
    l.lookup k = some b → (k, b) ∈ l := by
  intro l
  induction l with
  | nil => intro k b h; cases h
  | cons p t ih =>
    intro k b h
    obtain ⟨k', v⟩ := p
    rw [List.lookup_cons] at h
    by_cases hk : (k == k') = true
    · rw [hk] at h
      have hkk : k = k' := by simpa using hk
      have hvb : v = b := by simpa using h
      subst hkk
      subst hvb
      exact List.mem_cons_self _ _
    · rw [Bool.not_eq_true] at hk
      rw [hk] at h
      exact List.mem_cons_of_mem _ (ih k b h)

theorem dragMove_preserves_ids (n : Nat) (sel : List Nat)
    (bases : List (Nat × Obj)) (dx dy : ℚ) (l : List Obj)
    (hb : ∀ p ∈ bases, (p.2).id = p.1) (h : idsOk n l) :
    idsOk n (dragMove sel bases dx dy l) := by
  unfold dragMove
  refine idsOk_map_of_id _ _ _ ?_ h
  intro o
  by_cases hc : sel.contains o.id = true
  · rw [if_pos hc]
    rcases hl : bases.lookup o.id with _ | b
    · rfl
    · dsimp only
      rw [moveFromBase_id]
      exact hb _ (lookup_mem_pair _ _ _ hl)
  · rw [if_neg hc]

theorem handleSelectDownHit_bases (E : Env) (s : State) (x y : ℚ) (d : DownHit)
    (hd : handleSelectDownHit E s x y = some d) :
    ∀ p ∈ d.dragBases, (p.2).id = p.1 := by
  unfold handleSelectDownHit at hd
  rcases hf : findObjectAt E s.objects x y with _ | hit
  · rw [hf] at hd
    simp at hd
  · rw [hf] at hd
    dsimp only at hd
    by_cases hl : hit.locked = true
    · rw [if_pos hl] at hd
      cases hd
      intro p hp
      simp at hp
    · rw [if_neg hl] at hd
      cases hd
      intro p hp
      obtain ⟨i, hi, hsome⟩ := List.mem_filterMap.mp hp
      rcases hg : getObjectById s.objects i with _ | o
      · rw [hg] at hsome
        simp at hsome
      · rw [hg] at hsome
        dsimp only at hsome
        by_cases hol : o.locked = true
        · rw [if_pos hol] at hsome
          simp at hsome
        · rw [if_neg hol] at hsome
          cases hsome
          have hg' : List.find? (fun o' => o'.id == i) s.objects = some o := hg
          have := List.find?_some hg'
          simpa using this

theorem pairwise_splice {α : Type} {R : α → α → Prop} (l1 mid l2 : List α)
    (h : List.Pairwise R (l1 ++ l2)) (hm : List.Pairwise R mid)
    (hc : ∀ a, (a ∈ l1 ∨ a ∈ l2) → ∀ b ∈ mid, R a b ∧ R b a) :
    List.Pairwise R (l1 ++ (mid ++ l2)) := by
  rw [List.pairwise_append] at h
  obtain ⟨h1, h2, h12⟩ := h
  rw [List.pairwise_append]
  refine ⟨h1, ?_, ?_⟩
  · rw [List.pairwise_append]
    exact ⟨hm, h2, fun a ha b hb => (hc b (Or.inr hb) a ha).2⟩
  · intro a ha b hb
    rcases List.mem_append.mp hb with hb | hb
    · exact (hc a (Or.inl ha) b hb).1
    · exact h12 a ha b hb

theorem idsOk_insert_fresh (n : Nat) (l : List Obj) (k : Nat) (x : Obj)
    (hx : x.id = n) (h : idsOk n l) :
    idsOk (n + 1) (l.take k ++ x :: l.drop k) := by
  obtain ⟨hp, hb⟩ := h
  have hall : ∀ a ∈ l, a.id ≠ x.id := fun a ha => by
    rw [hx]
    exact Nat.ne_of_lt (hb a ha)
  have hp' : List.Pairwise (fun a b => a.id ≠ b.id) (l.take k ++ l.drop k) := by
    rw [List.take_append_drop]
    exact hp
  rw [List.pairwise_append] at hp'
  obtain ⟨h1, h2, h12⟩ := hp'
  constructor
  · rw [List.pairwise_append]
    refine ⟨h1, ?_, ?_⟩
    · rw [List.pairwise_cons]
      exact ⟨fun b hb' => (hall b (List.mem_of_mem_drop hb')).symm, h2⟩
    · intro a ha b hb'
      rcases List.mem_cons.mp hb' with rfl | hb'
      · exact hall a (List.mem_of_mem_take ha)
      · exact h12 a ha b hb'
  · intro o ho
    rcases List.mem_append.mp ho with ho | ho
    · exact Nat.lt_succ_of_lt (hb o (List.mem_of_mem_take ho))
    · rcases List.mem_cons.mp ho with rfl | ho
      · rw [hx]
        exact Nat.lt_succ_self n
      · exact Nat.lt_succ_of_lt (hb o (List.mem_of_mem_drop ho))

theorem mapIdx_map_id_range' (l : List Obj) :
    ∀ (n : Nat) (f : Nat → Obj → Obj), (∀ j c, (f j c).id = n + j) →
      (l.mapIdx f).map Obj.id = List.range' n l.length := by
  induction l with
  | nil => intro n f hf; rfl
  | cons a t ih =>
    intro n f hf
    simp only [List.mapIdx_cons, List.map_cons]
    rw [hf 0 a, Nat.add_zero, List.length_cons, List.range'_succ]
    congr 1
    refine ih (n + 1) (fun i => f (i + 1)) ?_
    intro j c
    rw [hf (j + 1) c]
    omega

theorem idsOk_splice_block (n m : Nat) (l : List Obj) (idx : Nat)
    (mid : List Obj) (hlen : mid.length = m)
    (hmid : mid.map Obj.id = List.range' n m)
    (h : idsOk n l) :
    idsOk (n + m) (l.take idx ++ mid ++ l.drop (idx + 1)) := by
  subst hlen
  obtain ⟨hp, hb⟩ := h
  have herase : List.Pairwise (fun a b => a.id ≠ b.id)
      (l.take idx ++ l.drop (idx + 1)) := by
    rw [← List.eraseIdx_eq_take_drop_succ]
    exact hp.sublist (List.eraseIdx_sublist l idx)
  have hmid_mem : ∀ b ∈ mid, n ≤ b.id ∧ b.id < n + mid.length := by
    intro b hb'
    have hin : b.id ∈ mid.map Obj.id := List.mem_map_of_mem _ hb'
    rw [hmid] at hin
    exact List.mem_range'_1.mp hin
  have hmid_pw : List.Pairwise (fun a b => a.id ≠ b.id) mid := by
    refine List.Pairwise.of_map Obj.id (fun a b hab => hab) ?_
    rw [hmid]
    exact List.nodup_range' n mid.length
  constructor
  · rw [List.append_assoc]
    refine pairwise_splice _ _ _ herase hmid_pw ?_
    intro a ha b hb'
    have hlt : a.id < n := by
      rcases ha with ha | ha
      · exact hb a (List.mem_of_mem_take ha)
      · exact hb a (List.mem_of_mem_drop ha)
    have hge := (hmid_mem b hb').1
    exact ⟨by omega, by omega⟩
  · intro o ho
    rcases List.mem_append.mp ho with ho | ho
    · rcases List.mem_append.mp ho with ho | ho
      · have := hb o (List.mem_of_mem_take ho)
        omega
      · exact (hmid_mem o ho).2
    · have := hb o (List.mem_of_mem_drop ho)
      omega

theorem applyPropToSelected_inv (p : String) (v : PropVal) {s : State}
    (hs : StateInv s) : StateInv (applyPropToSelected p v s) := by
  unfold applyPropToSelected
  split
  · exact hs
  · refine ⟨?_, hs.hist⟩
    refine idsOk_map_of_id _ _ _ ?_ hs.objs
    intro o
    by_cases hc : s.selectedIds.contains o.id = true
    · rw [if_pos hc]
      exact applyPropToObj_id _ _ _
    · rw [if_neg hc]

theorem applyPropToSelected_nextId (p : String) (v : PropVal) (s : State) :
    (applyPropToSelected p v s).nextId = s.nextId := by
  unfold applyPropToSelected
  split <;> rfl

theorem initState_inv : StateInv initState := by
  refine saveSnap_inv ⟨idsOk_nil 1, ?_⟩
  intro h hh
  simp [blankState] at hh

theorem applyOp_inv (E : Env) (op : Op) (s : State) (hs : StateInv s) :
    StateInv (applyOp E op s) ∧ s.nextId ≤ (applyOp E op s).nextId := by
  cases op with
  | freehand cur x y =>
    show StateInv (commitFreehandStroke E cur x y s) ∧
      s.nextId ≤ (commitFreehandStroke E cur x y s).nextId
    unfold commitFreehandStroke
    dsimp only
    by_cases ht : cur.tool = "eraser"
    · rw [if_pos ht]
      exact ⟨saveSnap_inv ⟨idsOk_filter _ _ _ hs.objs, hs.hist⟩,
        le_of_eq (saveSnap_nextId _).symm⟩
    · rw [if_neg ht]
      exact ⟨saveSnap_inv ⟨idsOk_append_fresh _ _ _ rfl hs.objs,
        fun h hh => idsOk_mono (Nat.le_succ _) (hs.hist h hh)⟩,
        by rw [saveSnap_nextId]; exact Nat.le_succ _⟩
  | shapeG cur cr sd sh x y =>
    show StateInv (commitShape cur cr sd sh x y s) ∧
      s.nextId ≤ (commitShape cur cr sd sh x y s).nextId
    unfold commitShape
    dsimp only
    exact ⟨saveSnap_inv ⟨idsOk_append_fresh _ _ _ rfl hs.objs,
      fun h hh => idsOk_mono (Nat.le_succ _) (hs.hist h hh)⟩,
      by rw [saveSnap_nextId]; exact Nat.le_succ _⟩
  | textG input x y fs c op2 =>
    show StateInv (commitText input x y fs c op2 s) ∧
      s.nextId ≤ (commitText input x y fs c op2 s).nextId
    unfold commitText
    dsimp only
    by_cases ht : input.trim = ""
    · rw [if_pos ht]
      exact ⟨hs, le_refl _⟩
    · rw [if_neg ht]
      exact ⟨saveSnap_inv ⟨idsOk_append_fresh _ _ _ rfl hs.objs,
        fun h hh => idsOk_mono (Nat.le_succ _) (hs.hist h hh)⟩,
        by rw [saveSnap_nextId]; exact Nat.le_succ _⟩
  | select ids =>
    exact ⟨⟨hs.objs, hs.hist⟩, le_refl _⟩
  | marquee ms me =>
    show StateInv (marqueeGesture E ms me s) ∧
      s.nextId ≤ (marqueeGesture E ms me s).nextId
    unfold marqueeGesture finishMarquee
    dsimp only
    by_cases hmv : 4 < max ms.x me.x - min ms.x me.x ∨
        4 < max ms.y me.y - min ms.y me.y
    · rw [if_pos hmv]
      exact ⟨⟨hs.objs, hs.hist⟩, le_refl _⟩
    · rw [if_neg hmv]
      exact ⟨⟨hs.objs, hs.hist⟩, le_refl _⟩
  | drag x y dx dy =>
    show StateInv (dragGesture E x y dx dy s) ∧
      s.nextId ≤ (dragGesture E x y dx dy s).nextId
    unfold dragGesture
    rcases hd : handleSelectDownHit E s x y with _ | d
    · exact ⟨hs, le_refl _⟩
    · dsimp only
      by_cases hdr : d.isDragging = true
      · rw [if_pos hdr]
        refine ⟨saveSnap_inv ⟨?_, hs.hist⟩, le_of_eq (saveSnap_nextId _).symm⟩
        exact dragMove_preserves_ids _ _ _ _ _ _
          (handleSelectDownHit_bases E s x y d hd) hs.objs
      · rw [if_neg hdr]
        exact ⟨⟨hs.objs, hs.hist⟩, le_refl _⟩
  | editProp p v =>
    show StateInv (saveSnap (applyPropToSelected p v s)) ∧
      s.nextId ≤ (saveSnap (applyPropToSelected p v s)).nextId
    exact ⟨saveSnap_inv (applyPropToSelected_inv p v hs),
      by rw [saveSnap_nextId, applyPropToSelected_nextId]⟩
  | colorSel c =>
    show StateInv (setColor c s) ∧ s.nextId ≤ (setColor c s).nextId
    unfold setColor
    by_cases hne : s.selectedIds = []
    · rw [if_pos hne]
      exact ⟨hs, le_refl _⟩
    · rw [if_neg hne]
      dsimp only
      by_cases hal : (s.selectedIds.all fun i =>
          match getObjectById s.objects i with
          | some o => o.locked
          | none => false) = true
      · rw [if_pos hal]
        exact ⟨hs, le_refl _⟩
      · rw [if_neg hal]
        exact ⟨saveSnap_inv (applyPropToSelected_inv _ _ hs),
          by rw [saveSnap_nextId, applyPropToSelected_nextId]⟩
  | deleteSel =>
    show StateInv (deleteSelected s) ∧ s.nextId ≤ (deleteSelected s).nextId
    unfold deleteSelected
    by_cases hne : s.selectedIds = []
    · rw [if_pos hne]
      exact ⟨hs, le_refl _⟩
    · rw [if_neg hne]
      exact ⟨saveSnap_inv ⟨idsOk_filter _ _ _ hs.objs, hs.hist⟩,
        le_of_eq (saveSnap_nextId _).symm⟩
  | groupSel =>
    show StateInv (groupSelected s) ∧ s.nextId ≤ (groupSelected s).nextId
    unfold groupSelected
    by_cases hlen : s.selectedIds.length < 2
    · rw [if_pos hlen]
      exact ⟨hs, le_refl _⟩
    · rw [if_neg hlen]
      dsimp only
      refine ⟨saveSnap_inv ⟨?_, ?_⟩, ?_⟩
      · exact idsOk_insert_fresh s.nextId _ _ _ rfl
          (idsOk_filter _ _ _ hs.objs)
      · intro h hh
        exact idsOk_mono (Nat.le_succ _) (hs.hist h hh)
      · rw [saveSnap_nextId]
        exact Nat.le_succ _
  | ungroupSel =>
    show StateInv (ungroupSelected s) ∧ s.nextId ≤ (ungroupSelected s).nextId
    unfold ungroupSelected
    rcases hsl : s.selectedIds with _ | ⟨gid, tl⟩
    · exact ⟨hs, le_refl _⟩
    · rcases tl with _ | ⟨i2, tl2⟩
      · dsimp only
        rcases hg : getObjectById s.objects gid with _ | o
        · exact ⟨hs, le_refl _⟩
        · cases o with
          | group gid0 children gr lk =>
            dsimp only
            refine ⟨saveSnap_inv ⟨?_, ?_⟩, ?_⟩
            · refine idsOk_splice_block s.nextId children.length s.objects _ _
                List.length_mapIdx ?_ hs.objs
              refine mapIdx_map_id_range' children s.nextId _ ?_
              intro j c
              dsimp only
              split
              · exact Obj.id_withId _ _
              · rw [Obj.id_setRotation, Obj.id_withId]
            · intro h hh
              exact idsOk_mono (Nat.le_add_right _ _) (hs.hist h hh)
            · rw [saveSnap_nextId]
              exact Nat.le_add_right _ _
          | stroke i pts c sz op2 t r l => exact ⟨hs, le_refl _⟩
          | shape i k a b c d e f g h2 cr sd r l => exact ⟨hs, le_refl _⟩
          | text i x y ls fs c op2 r l => exact ⟨hs, le_refl _⟩
          | image i x y w h2 cr op2 r l => exact ⟨hs, le_refl _⟩
      · exact ⟨hs, le_refl _⟩
  | undoOp =>
    show StateInv (undo s) ∧ s.nextId ≤ (undo s).nextId
    unfold undo
    dsimp only
    by_cases hp : s.historyPtr ≤ 0
    · rw [if_pos hp]
      exact ⟨⟨hs.objs, hs.hist⟩, le_refl _⟩
    · rw [if_neg hp]
      exact ⟨⟨idsOk_historyAt _ _ _ hs.hist, hs.hist⟩, le_refl _⟩
  | redoOp =>
    show StateInv (redo s) ∧ s.nextId ≤ (redo s).nextId
    unfold redo
    dsimp only
    by_cases hp : (s.history.length : Int) - 1 ≤ s.historyPtr
    · rw [if_pos hp]
      exact ⟨⟨hs.objs, hs.hist⟩, le_refl _⟩
    · rw [if_neg hp]
      exact ⟨⟨idsOk_historyAt _ _ _ hs.hist, hs.hist⟩, le_refl _⟩
  | clearAll =>
    show StateInv (clearCanvas s) ∧ s.nextId ≤ (clearCanvas s).nextId
    unfold clearCanvas
    exact ⟨saveSnap_inv ⟨idsOk_nil _, hs.hist⟩,
      le_of_eq (saveSnap_nextId _).symm⟩

/-- **C9** — id uniqueness: starting from the initialised app, after any
sequence of modelled operations (stroke/shape/text commits, selection,
marquee, drag, property and colour edits, delete, group, ungroup, undo,
redo, clear) the top-level ids of the scene list — and of every history
snapshot — are pairwise distinct and strictly below the `_nextId` counter;
any further operation preserves this and never decreases `_nextId`, so ids
are handed out strictly increasing and an id is never reused even after
deletion, clearing, or undo/redo. -/
theorem id_uniqueness_invariant (E : Env) (ops : List Op) :
    StateInv (runOps E ops) ∧
    ∀ op : Op, StateInv (applyOp E op (runOps E ops)) ∧
      (runOps E ops).nextId ≤ (applyOp E op (runOps E ops)).nextId := by
  have hstep : ∀ (l : List Op) (s : State), StateInv s →
      StateInv (l.foldl (fun s op => applyOp E op s) s) := by
    intro l
    induction l with
    | nil => intro s hs; exact hs
    | cons op t ih =>
      intro s hs
      exact ih _ (applyOp_inv E op s hs).1
  have hrun : StateInv (runOps E ops) := hstep ops initState initState_inv
  exact ⟨hrun, fun op => applyOp_inv E op _ hrun⟩

end Canvas
